import Mathlib

/-!
# pg_commit_info: per-transaction change counters of a logical decoding output plugin

A shallow embedding of `pg_commit_info.c`.  The plugin keeps one
`CommitInfoDecodingData` record behind `ctx->output_plugin_private`, resets
its counters in the BEGIN callback, bumps them in the change and truncate
callbacks and prints one summary line in the COMMIT callback.

Conventions of the embedding

* `uint64` / `uint32` values are natural numbers, reduced `% 2 ^ 64` / `% 2 ^ 32`
  wherever the C code computes or converts them; a C `int` is an `Int`.
* A callback returns `Except CallbackFault LogicalDecodingContext`: dereferencing
  a NULL `output_plugin_private` and a failed `Assert` are faults.
* `ereport(ERROR, ...)` leaves the function at once; `pg_decode_startup`
  therefore returns the context as it stands at the exit together with the
  raised error, if any.
* The record is embedded for a build with `PG_VERSION_NUM >= 110000`, where the
  two truncate fields exist; the COMMIT callback takes `PG_VERSION_NUM` as a
  parameter because its output text differs between the two builds.
* Host functions that are not part of the plugin (`parse_bool`, the `Assert`
  switch `USE_ASSERT_CHECKING`) are parameters.
-/

set_option linter.unusedVariables false

namespace PgCommitInfo

/-! ## Host types -/

/-- A `DefElem` of the option list: `defname` and the optional string `arg`
(`none` is a NULL `arg`).  `Assert(elem->arg == NULL || IsA(elem->arg, String))`
holds by typing. -/
structure DefElem where
  defname : String
  arg : Option String
  deriving DecidableEq, Repr

/-- The part of `ReorderBufferTXN` the plugin reads. -/
structure ReorderBufferTXN where
  xid : Nat
  deriving DecidableEq, Repr

/-- The values of `enum ReorderBufferChangeType` of the host. -/
inductive ReorderBufferChangeType where
  | REORDER_BUFFER_CHANGE_INSERT
  | REORDER_BUFFER_CHANGE_UPDATE
  | REORDER_BUFFER_CHANGE_DELETE
  | REORDER_BUFFER_CHANGE_MESSAGE
  | REORDER_BUFFER_CHANGE_INTERNAL_SNAPSHOT
  | REORDER_BUFFER_CHANGE_INTERNAL_COMMAND_ID
  | REORDER_BUFFER_CHANGE_INTERNAL_TUPLECID
  | REORDER_BUFFER_CHANGE_INTERNAL_SPEC_INSERT
  | REORDER_BUFFER_CHANGE_INTERNAL_SPEC_CONFIRM
  | REORDER_BUFFER_CHANGE_TRUNCATE
  deriving DecidableEq, Repr

open ReorderBufferChangeType

/-- The part of `ReorderBufferChange` the plugin reads. -/
structure ReorderBufferChange where
  action : ReorderBufferChangeType
  deriving DecidableEq, Repr

/-- The plugin's private state (the `MemoryContext context` member, which only
owns memory, is left out). -/
structure CommitInfoDecodingData where
  nb_insert : Nat
  nb_delete : Nat
  nb_update : Nat
  nb_truncate : Nat
  nb_rel_truncated : Nat
  skip_empty_xacts : Bool
  xact_wrote_changes : Bool
  deriving DecidableEq, Repr

/-- The value of `opt->output_type`. -/
inductive OutputPluginOutputType where
  | OUTPUT_PLUGIN_BINARY_OUTPUT
  | OUTPUT_PLUGIN_TEXTUAL_OUTPUT
  deriving DecidableEq, Repr

/-- The caller's `OutputPluginOptions`. -/
structure OutputPluginOptions where
  output_type : OutputPluginOutputType
  deriving DecidableEq, Repr

/-- The part of `LogicalDecodingContext` the plugin touches: the option list,
the private slot (`none` is NULL), the output buffer `out`, and the messages
handed to the output stream so far. -/
structure LogicalDecodingContext where
  output_plugin_options : List DefElem
  output_plugin_private : Option CommitInfoDecodingData
  out : List Char
  written : List String
  deriving DecidableEq, Repr

/-- An error raised with `ereport(ERROR, ...)`. -/
structure ErrorData where
  sqlerrcode : String
  message : String
  deriving DecidableEq, Repr

/-- The SQLSTATE of `ERRCODE_INVALID_PARAMETER_VALUE`. -/
def ERRCODE_INVALID_PARAMETER_VALUE : String := "22023"

/-- The ways a callback can fail to return. -/
inductive CallbackFault where
  | nullPrivate
  | assertionFailure
  deriving DecidableEq, Repr

/-! ## The format interpreter behind `appendStringInfo` and `errmsg` -/

/-- An argument of a variadic format call. -/
inductive FormatArg where
  | uint (n : Nat)
  | str (s : String)
  deriving DecidableEq, Repr

/-- A conversion specification being read: the `0` flag, the field width and
the `l` length modifier. -/
structure ConvSpec where
  zeroPad : Bool
  width : Nat
  isLong : Bool
  deriving DecidableEq, Repr

/-- The number of value bits of the unsigned argument of a conversion:
`unsigned long` (64 bits) with `l`, `unsigned int` (32 bits) without. -/
def ConvSpec.bits (c : ConvSpec) : Nat := if c.isLong then 64 else 32

/-- Left padding of a converted field up to the field width, with `0` under the
zero flag and with blanks otherwise. -/
def ConvSpec.pad (c : ConvSpec) (field : List Char) : List Char :=
  List.replicate (c.width - field.length) (if c.zeroPad then '0' else ' ') ++ field

/-- The digits of `n` in upper-case hexadecimal, no padding. -/
def hexUpper (n : Nat) : List Char := (Nat.toDigits 16 n).map Char.toUpper

/-- The digits of `n` in decimal. -/
def decimal (n : Nat) : List Char := Nat.toDigits 10 n

/-- The text a format string expands to.  The second argument is the
conversion specification in progress (`none` outside one).  The conversions
the plugin uses are covered: `%u`, `%lu`, `%X` with flag and width, `%s`, and
`%%`. -/
def formatText : List Char → Option ConvSpec → List FormatArg → List Char
  | [], _, _ => []
  | c :: cs, none, args =>
    if c = '%' then formatText cs (some ⟨false, 0, false⟩) args
    else c :: formatText cs none args
  | c :: cs, some sp, args =>
    if c = '%' then '%' :: formatText cs none args
    else if c = '0' ∧ sp.width = 0 then formatText cs (some ⟨true, 0, sp.isLong⟩) args
    else if c.isDigit then
      formatText cs (some ⟨sp.zeroPad, sp.width * 10 + (c.toNat - 48), sp.isLong⟩) args
    else if c = 'l' then formatText cs (some ⟨sp.zeroPad, sp.width, true⟩) args
    else if c = 'u' then
      match args with
      | FormatArg.uint n :: rest => sp.pad (decimal (n % 2 ^ sp.bits)) ++ formatText cs none rest
      | _ => formatText cs none args.tail
    else if c = 'X' then
      match args with
      | FormatArg.uint n :: rest => sp.pad (hexUpper (n % 2 ^ sp.bits)) ++ formatText cs none rest
      | _ => formatText cs none args.tail
    else if c = 's' then
      match args with
      | FormatArg.str s :: rest => sp.pad s.data ++ formatText cs none rest
      | _ => formatText cs none args.tail
    else formatText cs none args

/-- The model of `appendStringInfo(buf, fmt, ...)`: the expansion of `fmt` is
appended to the buffer. -/
def appendStringInfo (buf : List Char) (fmt : String) (args : List FormatArg) : List Char :=
  buf ++ formatText fmt.data none args

/-- The model of `errmsg(fmt, ...)`: the expanded message text. -/
def errmsg (fmt : String) (args : List FormatArg) : String :=
  String.mk (formatText fmt.data none args)

/-- The model of `OutputPluginPrepareWrite`: the host clears `ctx->out`. -/
def OutputPluginPrepareWrite (ctx : LogicalDecodingContext) : LogicalDecodingContext :=
  { ctx with out := [] }

/-- The model of `OutputPluginWrite`: the host sends the content of `ctx->out`
as one message. -/
def OutputPluginWrite (ctx : LogicalDecodingContext) : LogicalDecodingContext :=
  { ctx with written := ctx.written ++ [String.mk ctx.out] }

/-! ## The plugin -/

/-- The part of a `Relation` descriptor that identifies it; the plugin never
looks inside. -/
structure Relation where
  rd_id : Nat
  deriving DecidableEq, Repr

/-- The `foreach(option, ctx->output_plugin_options)` loop of
`pg_decode_startup`, run on the options still to be read.  The result is the
private record at the exit and the error raised, if any. -/
def pg_decode_startup_options (parse_bool : String → Option Bool) :
    List DefElem → CommitInfoDecodingData → CommitInfoDecodingData × Option ErrorData
  | [], data => (data, none)
  | elem :: rest, data =>
    if elem.defname = "skip-empty-xacts" then
      match elem.arg with
      | none => pg_decode_startup_options parse_bool rest { data with skip_empty_xacts := false }
      | some v =>
        match parse_bool v with
        | some b => pg_decode_startup_options parse_bool rest { data with skip_empty_xacts := b }
        | none =>
          (data, some ⟨ERRCODE_INVALID_PARAMETER_VALUE,
            errmsg "could not parse value \"%s\" for parameter \"%s\""
              [FormatArg.str v, FormatArg.str elem.defname]⟩)
    else
      (data, some ⟨ERRCODE_INVALID_PARAMETER_VALUE,
        errmsg "option \"%s\" = \"%s\" is unknown"
          [FormatArg.str elem.defname, FormatArg.str (elem.arg.getD "(null)")]⟩)

/-- What `pg_decode_startup` leaves behind: the context, the caller's options
record and the error it raised (`none` when it returned normally). -/
structure StartupResult where
  ctx : LogicalDecodingContext
  opt : OutputPluginOptions
  error : Option ErrorData
  deriving DecidableEq, Repr

/-- The startup callback.  `palloc0` hands out a zeroed record, so both
booleans start as `false`. -/
def pg_decode_startup (parse_bool : String → Option Bool) (ctx : LogicalDecodingContext)
    (opt : OutputPluginOptions) (is_init : Bool) : StartupResult :=
  let data : CommitInfoDecodingData := ⟨0, 0, 0, 0, 0, false, false⟩
  let data := { data with nb_insert := 0 }
  let data := { data with nb_update := 0 }
  let data := { data with nb_delete := 0 }
  let data := { data with nb_truncate := 0 }
  let data := { data with nb_rel_truncated := 0 }
  let opt := { opt with output_type := OutputPluginOutputType.OUTPUT_PLUGIN_TEXTUAL_OUTPUT }
  let r := pg_decode_startup_options parse_bool ctx.output_plugin_options data
  ⟨{ ctx with output_plugin_private := some r.1 }, opt, r.2⟩

/-- The BEGIN callback. -/
def pg_decode_begin_txn (ctx : LogicalDecodingContext) (txn : ReorderBufferTXN) :
    Except CallbackFault LogicalDecodingContext :=
  match ctx.output_plugin_private with
  | none => Except.error CallbackFault.nullPrivate
  | some data =>
    let data := { data with nb_insert := 0 }
    let data := { data with nb_update := 0 }
    let data := { data with nb_delete := 0 }
    let data := { data with nb_truncate := 0 }
    let data := { data with nb_rel_truncated := 0 }
    let data := { data with xact_wrote_changes := false }
    Except.ok { ctx with output_plugin_private := some data }

/-- The COMMIT callback.  `PG_VERSION_NUM` selects the format string as the
`#if PG_VERSION_NUM >= 110000` of the source does. -/
def pg_decode_commit_txn (PG_VERSION_NUM : Nat) (ctx : LogicalDecodingContext)
    (txn : ReorderBufferTXN) (commit_lsn : Nat) : Except CallbackFault LogicalDecodingContext :=
  match ctx.output_plugin_private with
  | none => Except.error CallbackFault.nullPrivate
  | some data =>
    if data.skip_empty_xacts && !data.xact_wrote_changes then Except.ok ctx
    else
      let ctx := OutputPluginPrepareWrite ctx
      let out :=
        if 110000 ≤ PG_VERSION_NUM then
          appendStringInfo ctx.out
            "xid %u: lsn:%X/%08X inserts:%lu deletes:%lu updates:%lu truncates:%lu relations truncated:%lu"
            [FormatArg.uint txn.xid,
             FormatArg.uint ((commit_lsn >>> 32) % 2 ^ 32),
             FormatArg.uint (commit_lsn % 2 ^ 32),
             FormatArg.uint data.nb_insert,
             FormatArg.uint data.nb_delete,
             FormatArg.uint data.nb_update,
             FormatArg.uint data.nb_truncate,
             FormatArg.uint data.nb_rel_truncated]
        else
          appendStringInfo ctx.out
            "xid %u: lsn:%X/%08X inserts:%lu deletes:%lu updates:%lu"
            [FormatArg.uint txn.xid,
             FormatArg.uint ((commit_lsn >>> 32) % 2 ^ 32),
             FormatArg.uint (commit_lsn % 2 ^ 32),
             FormatArg.uint data.nb_insert,
             FormatArg.uint data.nb_delete,
             FormatArg.uint data.nb_update]
      let ctx := { ctx with out := out }
      Except.ok (OutputPluginWrite ctx)

/-- The callback for individual changed tuples.  `Assert(false)` aborts in a
build with `USE_ASSERT_CHECKING` and is empty otherwise. -/
def pg_decode_change (USE_ASSERT_CHECKING : Bool) (ctx : LogicalDecodingContext)
    (txn : ReorderBufferTXN) (relation : Relation) (change : ReorderBufferChange) :
    Except CallbackFault LogicalDecodingContext :=
  match ctx.output_plugin_private with
  | none => Except.error CallbackFault.nullPrivate
  | some data =>
    let data := { data with xact_wrote_changes := true }
    match change.action with
    | REORDER_BUFFER_CHANGE_INSERT =>
      let data := { data with nb_insert := (data.nb_insert + 1) % 2 ^ 64 }
      Except.ok { ctx with output_plugin_private := some data }
    | REORDER_BUFFER_CHANGE_UPDATE =>
      let data := { data with nb_update := (data.nb_update + 1) % 2 ^ 64 }
      Except.ok { ctx with output_plugin_private := some data }
    | REORDER_BUFFER_CHANGE_DELETE =>
      let data := { data with nb_delete := (data.nb_delete + 1) % 2 ^ 64 }
      Except.ok { ctx with output_plugin_private := some data }
    | _ =>
      if USE_ASSERT_CHECKING then Except.error CallbackFault.assertionFailure
      else Except.ok { ctx with output_plugin_private := some data }

/-- The truncate callback (`PG_VERSION_NUM >= 110000` only).  The `int`
argument `nrelations` is converted to `uint64` by the assignment. -/
def pg_decode_truncate (ctx : LogicalDecodingContext) (txn : ReorderBufferTXN)
    (nrelations : Int) (relations : List Relation) (change : ReorderBufferChange) :
    Except CallbackFault LogicalDecodingContext :=
  match ctx.output_plugin_private with
  | none => Except.error CallbackFault.nullPrivate
  | some data =>
    let data := { data with xact_wrote_changes := true }
    let data := { data with nb_truncate := (data.nb_truncate + 1) % 2 ^ 64 }
    let data := { data with nb_rel_truncated := (nrelations % 2 ^ 64).toNat }
    Except.ok { ctx with output_plugin_private := some data }

/-! ## The upstream engine's calls -/

/-- One call of the decoding engine into the callback table filled by
`_PG_output_plugin_init`. -/
inductive Callback where
  | begin_cb (txn : ReorderBufferTXN)
  | change_cb (txn : ReorderBufferTXN) (relation : Relation) (change : ReorderBufferChange)
  | truncate_cb (txn : ReorderBufferTXN) (nrelations : Int) (relations : List Relation)
      (change : ReorderBufferChange)
  | commit_cb (txn : ReorderBufferTXN) (commit_lsn : Nat)
  deriving DecidableEq, Repr

/-- The dispatch of one call to the function registered for it. -/
def Callback.call (PG_VERSION_NUM : Nat) (USE_ASSERT_CHECKING : Bool)
    (ctx : LogicalDecodingContext) : Callback → Except CallbackFault LogicalDecodingContext
  | Callback.begin_cb txn => pg_decode_begin_txn ctx txn
  | Callback.change_cb txn relation change =>
    pg_decode_change USE_ASSERT_CHECKING ctx txn relation change
  | Callback.truncate_cb txn nrelations relations change =>
    pg_decode_truncate ctx txn nrelations relations change
  | Callback.commit_cb txn commit_lsn => pg_decode_commit_txn PG_VERSION_NUM ctx txn commit_lsn

/-- A sequence of calls, each on the context the previous one left; the first
fault ends the run. -/
def runCallbacks (PG_VERSION_NUM : Nat) (USE_ASSERT_CHECKING : Bool) :
    LogicalDecodingContext → List Callback → Except CallbackFault LogicalDecodingContext
  | ctx, [] => Except.ok ctx
  | ctx, cb :: rest =>
    match cb.call PG_VERSION_NUM USE_ASSERT_CHECKING ctx with
    | Except.ok ctx1 => runCallbacks PG_VERSION_NUM USE_ASSERT_CHECKING ctx1 rest
    | Except.error e => Except.error e

/-! ## Vocabulary of the specification -/

/-- A call is a change notification of kind `a`. -/
def Callback.isChangeOf (a : ReorderBufferChangeType) : Callback → Bool
  | Callback.change_cb _ _ change => decide (change.action = a)
  | _ => false

/-- A call is a truncate notification. -/
def Callback.isTruncate : Callback → Bool
  | Callback.truncate_cb _ _ _ _ => true
  | _ => false

/-- A call is a change notification of kind Insert, Update or Delete. -/
def Callback.isRowChange : Callback → Bool
  | Callback.change_cb _ _ change =>
    decide (change.action = REORDER_BUFFER_CHANGE_INSERT) ||
    decide (change.action = REORDER_BUFFER_CHANGE_UPDATE) ||
    decide (change.action = REORDER_BUFFER_CHANGE_DELETE)
  | _ => false

/-- A call that may occur inside a transaction window: a row change of kind
Insert, Update or Delete, or a truncate whose relation count is a non-negative
C `int`. -/
def Callback.isWindowEvent : Callback → Bool
  | Callback.truncate_cb _ nrelations _ _ => decide (0 ≤ nrelations) && decide (nrelations < 2 ^ 31)
  | c => c.isRowChange

/-- The number of change notifications of kind `a` in a list of calls. -/
def countChanges (a : ReorderBufferChangeType) (calls : List Callback) : Nat :=
  calls.countP (Callback.isChangeOf a)

/-- The number of truncate notifications in a list of calls. -/
def countTruncates (calls : List Callback) : Nat :=
  calls.countP Callback.isTruncate

/-- The relation count of the last truncate notification of a list of calls,
`none` when the list has none. -/
def lastTruncate : List Callback → Option Int
  | [] => none
  | c :: rest =>
    match lastTruncate rest with
    | some n => some n
    | none =>
      match c with
      | Callback.truncate_cb _ nrelations _ _ => some nrelations
      | _ => none

/-- A transaction window: the transaction, the notifications between its
BEGIN and its COMMIT, and the commit position. -/
structure Window where
  txn : ReorderBufferTXN
  events : List Callback
  commit_lsn : Nat
  deriving DecidableEq, Repr

/-- The calls the engine makes for a window. -/
def Window.calls (w : Window) : List Callback :=
  Callback.begin_cb w.txn :: (w.events ++ [Callback.commit_cb w.txn w.commit_lsn])

/-- The `<lo8>` field of the specification: eight hexadecimal digits, padded
with zeros on the left. -/
def hex8 (n : Nat) : List Char :=
  List.replicate (8 - (hexUpper n).length) '0' ++ hexUpper n

/-- The summary line of the specification for a host with truncate support:
`xid <txid>: lsn:<hi>/<lo8> inserts:<n> deletes:<n> updates:<n> truncates:<n>
relations truncated:<n>`. -/
def summaryLine (txid lsn inserts deletes updates truncates relations : Nat) : String :=
  "xid " ++ toString txid ++ ": lsn:" ++ String.mk (hexUpper (lsn / 2 ^ 32)) ++ "/" ++
    String.mk (hex8 (lsn % 2 ^ 32)) ++ " inserts:" ++ toString inserts ++
    " deletes:" ++ toString deletes ++ " updates:" ++ toString updates ++
    " truncates:" ++ toString truncates ++ " relations truncated:" ++ toString relations

/-- The line the specification expects for a window on a host with truncate
support: its transaction id and commit position, the numbers (modulo 2^64) of
its Insert, Delete, Update and truncate notifications, and the relation count
of its last truncate notification (0 when it has none). -/
def Window.expectedLine (w : Window) : String :=
  summaryLine (w.txn.xid % 2 ^ 32) (w.commit_lsn % 2 ^ 64)
    (countChanges REORDER_BUFFER_CHANGE_INSERT w.events % 2 ^ 64)
    (countChanges REORDER_BUFFER_CHANGE_DELETE w.events % 2 ^ 64)
    (countChanges REORDER_BUFFER_CHANGE_UPDATE w.events % 2 ^ 64)
    (countTruncates w.events % 2 ^ 64)
    ((lastTruncate w.events).getD 0).toNat

/-- The value of an upper-case hexadecimal digit. -/
def hexDigitValue (c : Char) : Nat :=
  if c.isDigit then c.toNat - 48 else c.toNat - 55

/-- The number a string of upper-case hexadecimal digits denotes. -/
def hexValue (cs : List Char) : Nat :=
  cs.foldl (fun acc c => acc * 16 + hexDigitValue c) 0

/-- A character is one of `0`..`9`, `A`..`F`. -/
def isUpperHexDigit (c : Char) : Bool :=
  c.isDigit || (decide (65 ≤ c.toNat) && decide (c.toNat ≤ 70))

/-- An option the startup callback reads without raising an error: it is named
`skip-empty-xacts` and has no value or a value the boolean parser accepts. -/
def DefElem.accepted (parse_bool : String → Option Bool) (elem : DefElem) : Bool :=
  decide (elem.defname = "skip-empty-xacts") &&
    (match elem.arg with
     | none => true
     | some v => (parse_bool v).isSome)

/-- Modelled from the spec: the boolean-literal parser `parse_bool` belongs to
the host and is not in the plugin's source.  This stand-in accepts the host's
boolean literals (the unambiguous beginnings of `true`, `false`, `yes`, `no`,
`on`, `off`, in any letter case, and `1`, `0`); it only instantiates the
parser parameter in concrete scenarios. -/
def host_parse_bool (value : String) : Option Bool :=
  let v := value.data.map Char.toLower
  if v ∈ ["t".data, "tr".data, "tru".data, "true".data, "y".data, "ye".data, "yes".data,
      "on".data, "1".data] then some true
  else if v ∈ ["f".data, "fa".data, "fal".data, "fals".data, "false".data, "n".data,
      "no".data, "of".data, "off".data, "0".data] then some false
  else none

/-- A context before startup: no private record, nothing written. -/
def freshContext (options : List DefElem) : LogicalDecodingContext :=
  ⟨options, none, [], []⟩

/-- The options record the host passes to startup. -/
def hostOptions : OutputPluginOptions := ⟨OutputPluginOutputType.OUTPUT_PLUGIN_BINARY_OUTPUT⟩

/-- A call the engine may make on a session: a change notification has kind
Insert, Update or Delete; BEGIN, truncate and COMMIT calls are unrestricted. -/
def Callback.hasRowKind : Callback → Bool
  | Callback.change_cb _ _ change =>
    decide (change.action = REORDER_BUFFER_CHANGE_INSERT) ||
    decide (change.action = REORDER_BUFFER_CHANGE_UPDATE) ||
    decide (change.action = REORDER_BUFFER_CHANGE_DELETE)
  | _ => true

/-- A call is a BEGIN. -/
def Callback.isBegin : Callback → Bool
  | Callback.begin_cb _ => true
  | _ => false

/-- A call is a COMMIT. -/
def Callback.isCommit : Callback → Bool
  | Callback.commit_cb _ _ => true
  | _ => false

/-- The five counters of a record are all 0. -/
def CommitInfoDecodingData.countersZero (data : CommitInfoDecodingData) : Prop :=
  data.nb_insert = 0 ∧ data.nb_update = 0 ∧ data.nb_delete = 0 ∧
    data.nb_truncate = 0 ∧ data.nb_rel_truncated = 0

/-- The value an option that raises no error gives to `skipEmptyTransactions`:
false without a value, the parsed boolean with one. -/
def DefElem.flagValue (parse_bool : String → Option Bool) (elem : DefElem) : Bool :=
  match elem.arg with
  | none => false
  | some v => (parse_bool v).getD false

/-- The value of `skipEmptyTransactions` the specification gives for an option
list read without error: that of the last option, false for the empty list. -/
def lastOptionValue (parse_bool : String → Option Bool) (options : List DefElem) : Bool :=
  match options.getLast? with
  | none => false
  | some elem => elem.flagValue parse_bool

/-- The summary line of the specification for a host without truncate support:
`xid <txid>: lsn:<hi>/<lo8> inserts:<n> deletes:<n> updates:<n>`. -/
def summaryLineShort (txid lsn inserts deletes updates : Nat) : String :=
  "xid " ++ toString txid ++ ": lsn:" ++ String.mk (hexUpper (lsn / 2 ^ 32)) ++ "/" ++
    String.mk (hex8 (lsn % 2 ^ 32)) ++ " inserts:" ++ toString inserts ++
    " deletes:" ++ toString deletes ++ " updates:" ++ toString updates

/-! ## The callbacks on a context that holds a private record -/

theorem begin_txn_eq (ctx : LogicalDecodingContext) (data : CommitInfoDecodingData)
    (txn : ReorderBufferTXN) (h : ctx.output_plugin_private = some data) :
    pg_decode_begin_txn ctx txn =
      Except.ok
        { ctx with output_plugin_private := some ⟨0, 0, 0, 0, 0, data.skip_empty_xacts, false⟩ } := by
  simp [pg_decode_begin_txn, h]

theorem commit_txn_suppressed (V : Nat) (ctx : LogicalDecodingContext)
    (data : CommitInfoDecodingData) (txn : ReorderBufferTXN) (lsn : Nat)
    (h : ctx.output_plugin_private = some data)
    (hs : data.skip_empty_xacts = true) (hw : data.xact_wrote_changes = false) :
    pg_decode_commit_txn V ctx txn lsn = Except.ok ctx := by
  simp [pg_decode_commit_txn, h, hs, hw]

theorem commit_txn_emits (V : Nat) (ctx : LogicalDecodingContext)
    (data : CommitInfoDecodingData) (txn : ReorderBufferTXN) (lsn : Nat)
    (h : ctx.output_plugin_private = some data)
    (hne : ¬ (data.skip_empty_xacts = true ∧ data.xact_wrote_changes = false)) :
    ∃ line : List Char,
      pg_decode_commit_txn V ctx txn lsn =
        Except.ok { ctx with out := line, written := ctx.written ++ [String.mk line] } := by
  have hc : (data.skip_empty_xacts && !data.xact_wrote_changes) = false := by
    cases hs : data.skip_empty_xacts <;> cases hw : data.xact_wrote_changes <;> simp_all
  simp [pg_decode_commit_txn, h, hc, OutputPluginPrepareWrite, OutputPluginWrite]

theorem append_singleton_ne {α : Type} (l : List α) (x : α) : l ++ [x] ≠ l := by
  intro h
  have := congrArg List.length h
  simp at this

/-- C3: on every context that holds a private record, the BEGIN callback
returns a record whose five counters are 0 and whose `xact_wrote_changes` is
false (the configuration flag is kept); the result is the same for any other
prior counter values, and a second BEGIN changes nothing. -/
theorem begin_txn_resets (ctx : LogicalDecodingContext) (data : CommitInfoDecodingData)
    (txn : ReorderBufferTXN) (h : ctx.output_plugin_private = some data) :
    ∃ ctx1, pg_decode_begin_txn ctx txn = Except.ok ctx1 ∧
      ctx1.output_plugin_private = some ⟨0, 0, 0, 0, 0, data.skip_empty_xacts, false⟩ ∧
      (∀ (other : CommitInfoDecodingData) (txn2 : ReorderBufferTXN),
        other.skip_empty_xacts = data.skip_empty_xacts →
        pg_decode_begin_txn { ctx with output_plugin_private := some other } txn2 =
          Except.ok ctx1) ∧
      (∀ txn2 : ReorderBufferTXN, pg_decode_begin_txn ctx1 txn2 = Except.ok ctx1) := by
  refine ⟨_, begin_txn_eq ctx data txn h, rfl, ?_, ?_⟩
  · intro other txn2 ho
    simp [pg_decode_begin_txn, ho]
  · intro txn2
    simp [pg_decode_begin_txn]

/-- Witness of C3 on a record with non-zero counters. -/
theorem begin_txn_resets_witness :
    ∃ ctx1, pg_decode_begin_txn ⟨[], some ⟨7, 8, 9, 2, 5, true, true⟩, [], []⟩ ⟨42⟩ = Except.ok ctx1 ∧
      ctx1.output_plugin_private = some ⟨0, 0, 0, 0, 0, true, false⟩ ∧
      (∀ (other : CommitInfoDecodingData) (txn2 : ReorderBufferTXN),
        other.skip_empty_xacts = true →
        pg_decode_begin_txn
          { (⟨[], some ⟨7, 8, 9, 2, 5, true, true⟩, [], []⟩ : LogicalDecodingContext) with
            output_plugin_private := some other } txn2 = Except.ok ctx1) ∧
      (∀ txn2 : ReorderBufferTXN, pg_decode_begin_txn ctx1 txn2 = Except.ok ctx1) :=
  begin_txn_resets ⟨[], some ⟨7, 8, 9, 2, 5, true, true⟩, [], []⟩ ⟨7, 8, 9, 2, 5, true, true⟩ ⟨42⟩ rfl

/-- C4: on every context that holds a private record, the COMMIT callback
returns, and it leaves the written messages as they were exactly when
`skip_empty_xacts` is true and `xact_wrote_changes` is false; in every other
case, and so whenever `skip_empty_xacts` is false, it appends exactly one
message. -/
theorem commit_txn_line_count (V : Nat) (ctx : LogicalDecodingContext)
    (data : CommitInfoDecodingData) (txn : ReorderBufferTXN) (lsn : Nat)
    (h : ctx.output_plugin_private = some data) :
    ∃ ctx1, pg_decode_commit_txn V ctx txn lsn = Except.ok ctx1 ∧
      (ctx1.written = ctx.written ↔
        (data.skip_empty_xacts = true ∧ data.xact_wrote_changes = false)) ∧
      (¬ (data.skip_empty_xacts = true ∧ data.xact_wrote_changes = false) →
        ∃ line, ctx1.written = ctx.written ++ [line]) ∧
      (data.skip_empty_xacts = false → ∃ line, ctx1.written = ctx.written ++ [line]) := by
  by_cases hc : data.skip_empty_xacts = true ∧ data.xact_wrote_changes = false
  · refine ⟨ctx, commit_txn_suppressed V ctx data txn lsn h hc.1 hc.2, ?_, ?_, ?_⟩
    · simp [hc]
    · intro hn; exact absurd hc hn
    · intro hf; rw [hf] at hc; exact absurd hc.1 (by decide)
  · obtain ⟨line, hl⟩ := commit_txn_emits V ctx data txn lsn h hc
    refine ⟨_, hl, ?_, ?_, ?_⟩
    · constructor
      · intro hw; exact absurd hw (append_singleton_ne _ _)
      · intro hh; exact absurd hh hc
    · intro _; exact ⟨_, rfl⟩
    · intro _; exact ⟨_, rfl⟩

/-- Witness of C4: with `skip_empty_xacts = false` and all counters zero one
message is appended. -/
theorem commit_txn_line_count_witness :
    ∃ ctx1, pg_decode_commit_txn 110000 ⟨[], some ⟨0, 0, 0, 0, 0, false, false⟩, [], []⟩ ⟨7⟩ 64 =
        Except.ok ctx1 ∧
      (ctx1.written = [] ↔ (false = true ∧ false = false)) ∧
      (¬ (false = true ∧ false = false) → ∃ line, ctx1.written = [] ++ [line]) ∧
      (false = false → ∃ line, ctx1.written = [] ++ [line]) :=
  commit_txn_line_count 110000 ⟨[], some ⟨0, 0, 0, 0, 0, false, false⟩, [], []⟩
    ⟨0, 0, 0, 0, 0, false, false⟩ ⟨7⟩ 64 rfl

/-! ## Tallying the notifications of one window -/

theorem int_count_to_uint64 (n : Int) (h0 : 0 ≤ n) (h1 : n < 2 ^ 31) :
    (n % 2 ^ 64).toNat = n.toNat := by
  have : n % 2 ^ 64 = n := Int.emod_eq_of_lt h0 (by omega)
  rw [this]

theorem run_events (V : Nat) (A : Bool) :
    ∀ (evs : List Callback) (ctx : LogicalDecodingContext) (i d u t r : Nat) (s w : Bool),
      (∀ c ∈ evs, c.isWindowEvent = true) →
      ctx.output_plugin_private = some ⟨i % 2 ^ 64, d % 2 ^ 64, u % 2 ^ 64, t % 2 ^ 64, r, s, w⟩ →
      runCallbacks V A ctx evs =
        Except.ok { ctx with
        output_plugin_private := some
          ⟨(i + countChanges REORDER_BUFFER_CHANGE_INSERT evs) % 2 ^ 64,
           (d + countChanges REORDER_BUFFER_CHANGE_DELETE evs) % 2 ^ 64,
           (u + countChanges REORDER_BUFFER_CHANGE_UPDATE evs) % 2 ^ 64,
           (t + countTruncates evs) % 2 ^ 64,
           (match lastTruncate evs with
            | some n => n.toNat
            | none => r),
           s, w || !evs.isEmpty⟩ } := by
  intro evs
  induction evs with
  | nil =>
    intro ctx i d u t r s w _ h
    obtain ⟨o, p, ob, wr⟩ := ctx
    simp only at h
    subst h
    simp [runCallbacks, countChanges, countTruncates, lastTruncate]
  | cons c rest ih =>
    intro ctx i d u t r s w hall h
    have hc : c.isWindowEvent = true := hall c (List.mem_cons_self _ _)
    have hrest : ∀ x ∈ rest, x.isWindowEvent = true :=
      fun x hx => hall x (List.mem_cons_of_mem _ hx)
    cases c with
    | begin_cb txn => simp [Callback.isWindowEvent, Callback.isRowChange] at hc
    | commit_cb txn lsn => simp [Callback.isWindowEvent, Callback.isRowChange] at hc
    | truncate_cb txn n rels change =>
      simp only [Callback.isWindowEvent, Bool.and_eq_true, decide_eq_true_eq] at hc
      have hn : (n % 18446744073709551616).toNat = n.toNat := by
        simpa using int_count_to_uint64 n hc.1 hc.2
      have hstep : Callback.call V A ctx (Callback.truncate_cb txn n rels change) =
          Except.ok { ctx with
          output_plugin_private := some
            ⟨i % 2 ^ 64, d % 2 ^ 64, u % 2 ^ 64, (t + 1) % 2 ^ 64, n.toNat, s, true⟩ } := by
        simp [Callback.call, pg_decode_truncate, h, hn]
      have := ih { ctx with
          output_plugin_private := some
            ⟨i % 2 ^ 64, d % 2 ^ 64, u % 2 ^ 64, (t + 1) % 2 ^ 64, n.toNat, s, true⟩ }
          i d u (t + 1) n.toNat s true hrest rfl
      simp only [runCallbacks, hstep, this]
      simp only [countChanges, countTruncates, List.countP_cons, Callback.isChangeOf,
        Callback.isTruncate, lastTruncate]
      cases hl : lastTruncate rest <;> simp <;> omega
    | change_cb txn rel change =>
      obtain ⟨action⟩ := change
      cases action <;>
        simp [Callback.isWindowEvent, Callback.isRowChange] at hc
      · have hstep : Callback.call V A ctx
            (Callback.change_cb txn rel ⟨REORDER_BUFFER_CHANGE_INSERT⟩) =
            Except.ok { ctx with
            output_plugin_private := some
              ⟨(i + 1) % 2 ^ 64, d % 2 ^ 64, u % 2 ^ 64, t % 2 ^ 64, r, s, true⟩ } := by
          simp [Callback.call, pg_decode_change, h]
        have := ih { ctx with
            output_plugin_private := some
              ⟨(i + 1) % 2 ^ 64, d % 2 ^ 64, u % 2 ^ 64, t % 2 ^ 64, r, s, true⟩ }
            (i + 1) d u t r s true hrest rfl
        simp only [runCallbacks, hstep, this]
        simp only [countChanges, countTruncates, List.countP_cons, Callback.isChangeOf,
          Callback.isTruncate, lastTruncate]
        cases hl : lastTruncate rest <;> simp <;> omega
      · have hstep : Callback.call V A ctx
            (Callback.change_cb txn rel ⟨REORDER_BUFFER_CHANGE_UPDATE⟩) =
            Except.ok { ctx with
            output_plugin_private := some
              ⟨i % 2 ^ 64, d % 2 ^ 64, (u + 1) % 2 ^ 64, t % 2 ^ 64, r, s, true⟩ } := by
          simp [Callback.call, pg_decode_change, h]
        have := ih { ctx with
            output_plugin_private := some
              ⟨i % 2 ^ 64, d % 2 ^ 64, (u + 1) % 2 ^ 64, t % 2 ^ 64, r, s, true⟩ }
            i d (u + 1) t r s true hrest rfl
        simp only [runCallbacks, hstep, this]
        simp only [countChanges, countTruncates, List.countP_cons, Callback.isChangeOf,
          Callback.isTruncate, lastTruncate]
        cases hl : lastTruncate rest <;> simp <;> omega
      · have hstep : Callback.call V A ctx
            (Callback.change_cb txn rel ⟨REORDER_BUFFER_CHANGE_DELETE⟩) =
            Except.ok { ctx with
            output_plugin_private := some
              ⟨i % 2 ^ 64, (d + 1) % 2 ^ 64, u % 2 ^ 64, t % 2 ^ 64, r, s, true⟩ } := by
          simp [Callback.call, pg_decode_change, h]
        have := ih { ctx with
            output_plugin_private := some
              ⟨i % 2 ^ 64, (d + 1) % 2 ^ 64, u % 2 ^ 64, t % 2 ^ 64, r, s, true⟩ }
            i (d + 1) u t r s true hrest rfl
        simp only [runCallbacks, hstep, this]
        simp only [countChanges, countTruncates, List.countP_cons, Callback.isChangeOf,
          Callback.isTruncate, lastTruncate]
        cases hl : lastTruncate rest <;> simp <;> omega

theorem isWindowEvent_of_isRowChange (c : Callback) (h : c.isRowChange = true) :
    c.isWindowEvent = true := by
  cases c <;> simp_all [Callback.isWindowEvent, Callback.isRowChange]

theorem countTruncates_rowChanges (calls : List Callback)
    (h : ∀ c ∈ calls, c.isRowChange = true) : countTruncates calls = 0 := by
  unfold countTruncates
  rw [List.countP_eq_zero]
  intro c hc
  have := h c hc
  cases c <;> simp_all [Callback.isTruncate, Callback.isRowChange]

theorem lastTruncate_rowChanges (calls : List Callback)
    (h : ∀ c ∈ calls, c.isRowChange = true) : lastTruncate calls = none := by
  induction calls with
  | nil => rfl
  | cons c rest ih =>
    have hc := h c (List.mem_cons_self _ _)
    have hr := ih (fun x hx => h x (List.mem_cons_of_mem _ hx))
    cases c <;> simp_all [lastTruncate, Callback.isRowChange]

/-- C2: after a BEGIN, any list of N change notifications of kinds Insert,
Update and Delete leaves `nb_insert`, `nb_update` and `nb_delete` at the number
of notifications of each kind, reduced modulo 2^64, and `xact_wrote_changes` is
true exactly when N >= 1. -/
theorem change_counts (V : Nat) (A : Bool) (ctx : LogicalDecodingContext)
    (data : CommitInfoDecodingData) (txn : ReorderBufferTXN) (calls : List Callback)
    (h : ctx.output_plugin_private = some data)
    (hk : ∀ c ∈ calls, c.isRowChange = true) :
    ∃ data1, runCallbacks V A ctx (Callback.begin_cb txn :: calls) =
        Except.ok { ctx with output_plugin_private := some data1 } ∧
      data1.nb_insert = countChanges REORDER_BUFFER_CHANGE_INSERT calls % 2 ^ 64 ∧
      data1.nb_update = countChanges REORDER_BUFFER_CHANGE_UPDATE calls % 2 ^ 64 ∧
      data1.nb_delete = countChanges REORDER_BUFFER_CHANGE_DELETE calls % 2 ^ 64 ∧
      (data1.xact_wrote_changes = true ↔ 1 ≤ calls.length) := by
  have hev : ∀ c ∈ calls, c.isWindowEvent = true :=
    fun c hc => isWindowEvent_of_isRowChange c (hk c hc)
  have hrun := run_events V A calls
    { ctx with output_plugin_private := some ⟨0, 0, 0, 0, 0, data.skip_empty_xacts, false⟩ }
    0 0 0 0 0 data.skip_empty_xacts false hev rfl
  rw [countTruncates_rowChanges calls hk, lastTruncate_rowChanges calls hk] at hrun
  refine ⟨⟨(0 + countChanges REORDER_BUFFER_CHANGE_INSERT calls) % 2 ^ 64,
    (0 + countChanges REORDER_BUFFER_CHANGE_DELETE calls) % 2 ^ 64,
    (0 + countChanges REORDER_BUFFER_CHANGE_UPDATE calls) % 2 ^ 64,
    (0 + 0) % 2 ^ 64, 0, data.skip_empty_xacts, false || !calls.isEmpty⟩, ?_, ?_, ?_, ?_, ?_⟩
  · simp only [runCallbacks, Callback.call, begin_txn_eq ctx data txn h]
    exact hrun
  · simp
  · simp
  · simp
  · cases calls <;> simp

/-- Witness of C2: two inserts and one delete. -/
theorem change_counts_witness :
    ∃ data1, runCallbacks 110000 true ⟨[], some ⟨9, 9, 9, 9, 9, false, true⟩, [], []⟩
        [Callback.begin_cb ⟨100⟩,
         Callback.change_cb ⟨100⟩ ⟨1⟩ ⟨REORDER_BUFFER_CHANGE_INSERT⟩,
         Callback.change_cb ⟨100⟩ ⟨1⟩ ⟨REORDER_BUFFER_CHANGE_INSERT⟩,
         Callback.change_cb ⟨100⟩ ⟨1⟩ ⟨REORDER_BUFFER_CHANGE_DELETE⟩] =
        Except.ok ⟨[], some data1, [], []⟩ ∧
      data1.nb_insert = 2 ∧ data1.nb_update = 0 ∧ data1.nb_delete = 1 ∧
      data1.xact_wrote_changes = true := by
  obtain ⟨d, hrun, hi, hu, hd, hw⟩ := change_counts 110000 true
    ⟨[], some ⟨9, 9, 9, 9, 9, false, true⟩, [], []⟩ ⟨9, 9, 9, 9, 9, false, true⟩ ⟨100⟩
    [Callback.change_cb ⟨100⟩ ⟨1⟩ ⟨REORDER_BUFFER_CHANGE_INSERT⟩,
     Callback.change_cb ⟨100⟩ ⟨1⟩ ⟨REORDER_BUFFER_CHANGE_INSERT⟩,
     Callback.change_cb ⟨100⟩ ⟨1⟩ ⟨REORDER_BUFFER_CHANGE_DELETE⟩] rfl (by decide)
  exact ⟨d, hrun, by rw [hi]; decide, by rw [hu]; decide, by rw [hd]; decide,
    hw.2 (by decide)⟩

/-- A list of truncate notifications with valid relation counts: all are window
events, none is a row change, and the last relation count is the last entry's. -/
theorem truncate_calls_facts :
    ∀ (ts : List (ReorderBufferTXN × Int × List Relation × ReorderBufferChange)),
      (∀ t ∈ ts, 0 ≤ t.2.1 ∧ t.2.1 < 2 ^ 31) →
      (∀ c ∈ ts.map (fun t => Callback.truncate_cb t.1 t.2.1 t.2.2.1 t.2.2.2),
        c.isWindowEvent = true) ∧
      countTruncates (ts.map (fun t => Callback.truncate_cb t.1 t.2.1 t.2.2.1 t.2.2.2)) =
        ts.length ∧
      (∀ a, countChanges a (ts.map (fun t => Callback.truncate_cb t.1 t.2.1 t.2.2.1 t.2.2.2)) = 0) ∧
      lastTruncate (ts.map (fun t => Callback.truncate_cb t.1 t.2.1 t.2.2.1 t.2.2.2)) =
        ts.getLast?.map (fun t => t.2.1) := by
  intro ts
  induction ts with
  | nil => intro _; simp [countTruncates, countChanges, lastTruncate]
  | cons t rest ih =>
    intro h
    obtain ⟨h1, h2, h3, h4⟩ := ih (fun x hx => h x (List.mem_cons_of_mem _ hx))
    have ht := h t (List.mem_cons_self _ _)
    refine ⟨?_, ?_, ?_, ?_⟩
    · intro c hc
      simp only [List.map_cons, List.mem_cons] at hc
      rcases hc with hc | hc
      · subst hc
        have ht2 : t.2.1 < 2147483648 := by simpa using ht.2
        simp [Callback.isWindowEvent, ht.1, ht2]
      · exact h1 c hc
    · simp only [countTruncates] at h2
      simp [countTruncates, List.countP_cons, Callback.isTruncate, h2]
    · intro a
      have := h3 a
      simp only [countChanges] at this
      simp [countChanges, List.countP_cons, Callback.isChangeOf, this]
    · simp only [List.map_cons, lastTruncate, h4]
      cases rest with
      | nil => simp
      | cons r rs => simp [List.getLast?_cons_cons]; cases hrs : (r :: rs).getLast? <;> simp_all

/-- C8: after a BEGIN, a non-empty list of k truncate notifications with
relation counts n_1..n_k (non-negative C `int`s) leaves `nb_truncate` at k
(modulo 2^64, hence k itself when k < 2^64), `nb_rel_truncated` at n_k, the
last count and not the sum, `xact_wrote_changes` true, and the three row
counters at 0. -/
theorem truncate_counts (V : Nat) (A : Bool) (ctx : LogicalDecodingContext)
    (data : CommitInfoDecodingData) (txn : ReorderBufferTXN)
    (ts : List (ReorderBufferTXN × Int × List Relation × ReorderBufferChange))
    (h : ctx.output_plugin_private = some data) (hne : ts ≠ [])
    (hn : ∀ t ∈ ts, 0 ≤ t.2.1 ∧ t.2.1 < 2 ^ 31) :
    ∃ data1, runCallbacks V A ctx (Callback.begin_cb txn ::
          ts.map (fun t => Callback.truncate_cb t.1 t.2.1 t.2.2.1 t.2.2.2)) =
        Except.ok { ctx with output_plugin_private := some data1 } ∧
      data1.nb_truncate = ts.length % 2 ^ 64 ∧
      (ts.length < 2 ^ 64 → data1.nb_truncate = ts.length) ∧
      (data1.nb_rel_truncated : Int) = (ts.getLast hne).2.1 ∧
      data1.xact_wrote_changes = true ∧
      data1.nb_insert = 0 ∧ data1.nb_update = 0 ∧ data1.nb_delete = 0 := by
  obtain ⟨h1, h2, h3, h4⟩ := truncate_calls_facts ts hn
  have hrun := run_events V A (ts.map (fun t => Callback.truncate_cb t.1 t.2.1 t.2.2.1 t.2.2.2))
    { ctx with output_plugin_private := some ⟨0, 0, 0, 0, 0, data.skip_empty_xacts, false⟩ }
    0 0 0 0 0 data.skip_empty_xacts false h1 rfl
  rw [h2, h3, h3, h3, h4] at hrun
  have hlast : ts.getLast? = some (ts.getLast hne) := List.getLast?_eq_getLast _ hne
  have hpos := (hn (ts.getLast hne) (List.getLast_mem hne)).1
  rw [hlast] at hrun
  refine ⟨⟨(0 + 0) % 2 ^ 64, (0 + 0) % 2 ^ 64, (0 + 0) % 2 ^ 64, (0 + ts.length) % 2 ^ 64,
    ((ts.getLast hne).2.1).toNat, data.skip_empty_xacts,
    false || !(ts.map (fun t => Callback.truncate_cb t.1 t.2.1 t.2.2.1 t.2.2.2)).isEmpty⟩,
    ?_, ?_, ?_, ?_, ?_, ?_, ?_, ?_⟩
  · simp only [runCallbacks, Callback.call, begin_txn_eq ctx data txn h]
    exact hrun
  · simp
  · intro hlt; simp; omega
  · simp [Int.toNat_of_nonneg hpos]
  · cases ts with
    | nil => exact absurd rfl hne
    | cons t rest => simp
  · simp
  · simp
  · simp

/-- Witness of C8: relation counts 3 then 5 leave `nb_rel_truncated = 5` and
`nb_truncate = 2`. -/
theorem truncate_counts_witness :
    ∃ data1, runCallbacks 110000 true ⟨[], some ⟨9, 9, 9, 9, 9, false, false⟩, [], []⟩
        [Callback.begin_cb ⟨7⟩,
         Callback.truncate_cb ⟨7⟩ 3 [⟨1⟩, ⟨2⟩, ⟨3⟩] ⟨REORDER_BUFFER_CHANGE_TRUNCATE⟩,
         Callback.truncate_cb ⟨7⟩ 5 [⟨1⟩, ⟨2⟩, ⟨3⟩, ⟨4⟩, ⟨5⟩] ⟨REORDER_BUFFER_CHANGE_TRUNCATE⟩] =
        Except.ok ⟨[], some data1, [], []⟩ ∧
      data1.nb_truncate = 2 ∧ data1.nb_rel_truncated = 5 ∧ data1.xact_wrote_changes = true ∧
      data1.nb_insert = 0 ∧ data1.nb_update = 0 ∧ data1.nb_delete = 0 := by
  obtain ⟨d, hrun, _, ht, hr, hw, hi, hu, hd⟩ := truncate_counts 110000 true
    ⟨[], some ⟨9, 9, 9, 9, 9, false, false⟩, [], []⟩ ⟨9, 9, 9, 9, 9, false, false⟩ ⟨7⟩
    [(⟨7⟩, 3, [⟨1⟩, ⟨2⟩, ⟨3⟩], ⟨REORDER_BUFFER_CHANGE_TRUNCATE⟩),
     (⟨7⟩, 5, [⟨1⟩, ⟨2⟩, ⟨3⟩, ⟨4⟩, ⟨5⟩], ⟨REORDER_BUFFER_CHANGE_TRUNCATE⟩)] rfl (by simp)
    (by simp)
  refine ⟨d, hrun, ht (by decide), ?_, hw, hi, hu, hd⟩
  have : (d.nb_rel_truncated : Int) = 5 := by simpa using hr
  exact_mod_cast this

/-! ## The text of the commit line -/

theorem appendStringInfo_commit (a b c d e f g h : Nat) :
    appendStringInfo []
      "xid %u: lsn:%X/%08X inserts:%lu deletes:%lu updates:%lu truncates:%lu relations truncated:%lu"
      [FormatArg.uint a, FormatArg.uint b, FormatArg.uint c, FormatArg.uint d,
       FormatArg.uint e, FormatArg.uint f, FormatArg.uint g, FormatArg.uint h] =
    "xid ".data ++ decimal (a % 2 ^ 32) ++ ": lsn:".data ++ hexUpper (b % 2 ^ 32) ++ "/".data ++
      hex8 (c % 2 ^ 32) ++ " inserts:".data ++ decimal (d % 2 ^ 64) ++
      " deletes:".data ++ decimal (e % 2 ^ 64) ++ " updates:".data ++ decimal (f % 2 ^ 64) ++
      " truncates:".data ++ decimal (g % 2 ^ 64) ++
      " relations truncated:".data ++ decimal (h % 2 ^ 64) := by
  simp [appendStringInfo, formatText, ConvSpec.pad, ConvSpec.bits, hex8]

theorem summaryLine_data (x l i d u t r : Nat) :
    (summaryLine x l i d u t r).data =
    "xid ".data ++ decimal x ++ ": lsn:".data ++ hexUpper (l / 2 ^ 32) ++ "/".data ++
      hex8 (l % 2 ^ 32) ++ " inserts:".data ++ decimal i ++
      " deletes:".data ++ decimal d ++ " updates:".data ++ decimal u ++
      " truncates:".data ++ decimal t ++
      " relations truncated:".data ++ decimal r := by
  have ht : ∀ n : Nat, (toString n).data = Nat.toDigits 10 n := fun _ => rfl
  simp [summaryLine, String.data_append, decimal, ht]

theorem lsn_halves (lsn : Nat) :
    (lsn >>> 32) % 2 ^ 32 % 2 ^ 32 = lsn % 2 ^ 64 / 2 ^ 32 ∧
    lsn % 2 ^ 32 % 2 ^ 32 = lsn % 2 ^ 64 % 2 ^ 32 := by
  rw [Nat.shiftRight_eq_div_pow]
  omega

theorem commit_txn_line (V : Nat) (ctx : LogicalDecodingContext)
    (data : CommitInfoDecodingData) (txn : ReorderBufferTXN) (lsn : Nat)
    (hV : 110000 ≤ V) (h : ctx.output_plugin_private = some data)
    (hne : ¬ (data.skip_empty_xacts = true ∧ data.xact_wrote_changes = false)) :
    pg_decode_commit_txn V ctx txn lsn =
      Except.ok { ctx with
        out := (summaryLine (txn.xid % 2 ^ 32) (lsn % 2 ^ 64) (data.nb_insert % 2 ^ 64)
            (data.nb_delete % 2 ^ 64) (data.nb_update % 2 ^ 64) (data.nb_truncate % 2 ^ 64)
            (data.nb_rel_truncated % 2 ^ 64)).data,
        written := ctx.written ++
          [summaryLine (txn.xid % 2 ^ 32) (lsn % 2 ^ 64) (data.nb_insert % 2 ^ 64)
            (data.nb_delete % 2 ^ 64) (data.nb_update % 2 ^ 64) (data.nb_truncate % 2 ^ 64)
            (data.nb_rel_truncated % 2 ^ 64)] } := by
  have hc : (data.skip_empty_xacts && !data.xact_wrote_changes) = false := by
    cases hs : data.skip_empty_xacts <;> cases hw : data.xact_wrote_changes <;> simp_all
  simp only [pg_decode_commit_txn, h, hc, OutputPluginPrepareWrite, OutputPluginWrite,
    if_pos hV, appendStringInfo_commit, summaryLine_data, (lsn_halves lsn).1, (lsn_halves lsn).2,
    Bool.false_eq_true, if_false]
  rfl

/-! ## Hexadecimal fields -/

theorem hexDigit_facts (d : Nat) (h : d < 16) :
    isUpperHexDigit (Nat.digitChar d).toUpper = true ∧
    hexDigitValue (Nat.digitChar d).toUpper = d ∧
    ((Nat.digitChar d).toUpper = '0' ↔ d = 0) := by
  interval_cases d <;> decide

theorem hexValue_append_singleton (q : List Char) (c : Char) :
    hexValue (q ++ [c]) = hexValue q * 16 + hexDigitValue c := by
  simp [hexValue, List.foldl_append]

theorem hexValue_zeros_append (k : Nat) (q : List Char) :
    hexValue (List.replicate k '0' ++ q) = hexValue q := by
  induction k with
  | zero => simp
  | succ k ih =>
    have h0 : hexDigitValue '0' = 0 := by decide
    simp only [hexValue, List.replicate_succ, List.cons_append, List.foldl_cons, h0] at ih ⊢
    simpa using ih

theorem toDigitsCore_hex :
    ∀ (fuel n : Nat) (ds : List Char), n < fuel →
      ∃ pre, Nat.toDigitsCore 16 fuel n ds = pre ++ ds ∧ pre ≠ [] ∧
        (∀ c ∈ pre.map Char.toUpper, isUpperHexDigit c = true) ∧
        hexValue (pre.map Char.toUpper) = n ∧
        (n = 0 → pre.map Char.toUpper = ['0']) ∧
        (0 < n → (pre.map Char.toUpper).head? ≠ some '0') := by
  intro fuel
  induction fuel with
  | zero => intro n ds h; omega
  | succ fuel ih =>
    intro n ds h
    by_cases hq : n / 16 = 0
    · have hn : n < 16 := by omega
      have hmod : n % 16 = n := Nat.mod_eq_of_lt hn
      obtain ⟨f1, f2, f3⟩ := hexDigit_facts n hn
      refine ⟨[Nat.digitChar n], ?_, by simp, ?_, ?_, ?_, ?_⟩
      · simp [Nat.toDigitsCore, hq, hmod]
      · intro c hc
        simp only [List.map_cons, List.map_nil, List.mem_singleton] at hc
        rw [hc]; exact f1
      · simp [hexValue, f2]
      · intro h0; subst h0; rfl
      · intro hpos hhead
        simp only [List.map_cons, List.map_nil, List.head?_cons, Option.some.injEq] at hhead
        have := f3.1 hhead
        omega
    · have hlt : n / 16 < fuel := by omega
      obtain ⟨pre, e1, e2, e3, e4, _, e6⟩ := ih (n / 16) (Nat.digitChar (n % 16) :: ds) hlt
      obtain ⟨f1, f2, _⟩ := hexDigit_facts (n % 16) (Nat.mod_lt _ (by decide))
      refine ⟨pre ++ [Nat.digitChar (n % 16)], ?_, by simp, ?_, ?_, ?_, ?_⟩
      · simp [Nat.toDigitsCore, hq, e1]
      · intro c hc
        simp only [List.map_append, List.map_cons, List.map_nil, List.mem_append,
          List.mem_singleton] at hc
        rcases hc with hc | hc
        · exact e3 c hc
        · rw [hc]; exact f1
      · rw [List.map_append, List.map_cons, List.map_nil, hexValue_append_singleton, e4, f2]
        omega
      · intro h0; omega
      · intro _
        have := e6 (by omega)
        cases pre with
        | nil => exact absurd rfl e2
        | cons p ps => simpa using this

theorem hexUpper_facts (n : Nat) :
    hexUpper n ≠ [] ∧ (∀ c ∈ hexUpper n, isUpperHexDigit c = true) ∧
    hexValue (hexUpper n) = n ∧
    (hexUpper n = ['0'] ∨ (hexUpper n).head? ≠ some '0') := by
  obtain ⟨pre, e1, e2, e3, e4, e5, e6⟩ := toDigitsCore_hex (n + 1) n [] (Nat.lt_succ_self n)
  have hx : hexUpper n = pre.map Char.toUpper := by
    simp [hexUpper, Nat.toDigits, e1]
  rw [hx]
  refine ⟨by simpa using e2, e3, e4, ?_⟩
  rcases Nat.eq_zero_or_pos n with h0 | hpos
  · exact Or.inl (e5 h0)
  · exact Or.inr (e6 hpos)

theorem hexUpper_length_le (n : Nat) (h : n < 2 ^ 32) : (hexUpper n).length ≤ 8 := by
  have := Nat.toDigitsCore_length 16 (by decide) (n + 1) n 8 (by omega) (by decide)
  simpa [hexUpper, Nat.toDigits] using this

theorem hex8_facts (n : Nat) (h : n < 2 ^ 32) :
    (hex8 n).length = 8 ∧ (∀ c ∈ hex8 n, isUpperHexDigit c = true) ∧ hexValue (hex8 n) = n := by
  obtain ⟨_, g2, g3, _⟩ := hexUpper_facts n
  have hl := hexUpper_length_le n h
  refine ⟨?_, ?_, ?_⟩
  · simp only [hex8, List.length_append, List.length_replicate]; omega
  · intro c hc
    simp only [hex8, List.mem_append] at hc
    rcases hc with hc | hc
    · rw [(List.mem_replicate.mp hc).2]; decide
    · exact g2 c hc
  · rw [hex8, hexValue_zeros_append, g3]

theorem appendStringInfo_commit_short (a b c d e f : Nat) :
    appendStringInfo [] "xid %u: lsn:%X/%08X inserts:%lu deletes:%lu updates:%lu"
      [FormatArg.uint a, FormatArg.uint b, FormatArg.uint c, FormatArg.uint d,
       FormatArg.uint e, FormatArg.uint f] =
    "xid ".data ++ decimal (a % 2 ^ 32) ++ ": lsn:".data ++ hexUpper (b % 2 ^ 32) ++ "/".data ++
      hex8 (c % 2 ^ 32) ++ " inserts:".data ++ decimal (d % 2 ^ 64) ++
      " deletes:".data ++ decimal (e % 2 ^ 64) ++ " updates:".data ++ decimal (f % 2 ^ 64) := by
  simp [appendStringInfo, formatText, ConvSpec.pad, ConvSpec.bits, hex8]

/-- C6: with truncate support (`PG_VERSION_NUM >= 110000`), a COMMIT that is
not suppressed appends exactly the text `xid <txid>: lsn:<hi>/<lo8>
inserts:<nb_insert> deletes:<nb_delete> updates:<nb_update>
truncates:<nb_truncate> relations truncated:<nb_rel_truncated>`, the
transaction id (a 32-bit value) and the counters (64-bit values) in unsigned
decimal, in that order. -/
theorem commit_txn_text (V : Nat) (ctx : LogicalDecodingContext)
    (data : CommitInfoDecodingData) (txn : ReorderBufferTXN) (lsn : Nat)
    (hV : 110000 ≤ V) (h : ctx.output_plugin_private = some data)
    (hne : ¬ (data.skip_empty_xacts = true ∧ data.xact_wrote_changes = false)) :
    ∃ ctx1, pg_decode_commit_txn V ctx txn lsn = Except.ok ctx1 ∧
      ctx1.written = ctx.written ++
        ["xid " ++ toString (txn.xid % 2 ^ 32) ++ ": lsn:" ++
          String.mk (hexUpper (lsn % 2 ^ 64 / 2 ^ 32)) ++ "/" ++
          String.mk (hex8 (lsn % 2 ^ 32)) ++
          " inserts:" ++ toString (data.nb_insert % 2 ^ 64) ++
          " deletes:" ++ toString (data.nb_delete % 2 ^ 64) ++
          " updates:" ++ toString (data.nb_update % 2 ^ 64) ++
          " truncates:" ++ toString (data.nb_truncate % 2 ^ 64) ++
          " relations truncated:" ++ toString (data.nb_rel_truncated % 2 ^ 64)] := by
  refine ⟨_, commit_txn_line V ctx data txn lsn hV h hne, ?_⟩
  have : lsn % 2 ^ 64 % 2 ^ 32 = lsn % 2 ^ 32 := by omega
  simp only [summaryLine, this]

/-- Witness of C6: startup without options, BEGIN of transaction 100, two
inserts, one delete, COMMIT at position 0x0000000100000040. -/
theorem commit_txn_text_witness :
    ∃ ctxA ctxB,
      (pg_decode_startup host_parse_bool (freshContext []) hostOptions false).error = none ∧
      runCallbacks 110000 true
        (pg_decode_startup host_parse_bool (freshContext []) hostOptions false).ctx
        [Callback.begin_cb ⟨100⟩,
         Callback.change_cb ⟨100⟩ ⟨1⟩ ⟨REORDER_BUFFER_CHANGE_INSERT⟩,
         Callback.change_cb ⟨100⟩ ⟨1⟩ ⟨REORDER_BUFFER_CHANGE_INSERT⟩,
         Callback.change_cb ⟨100⟩ ⟨1⟩ ⟨REORDER_BUFFER_CHANGE_DELETE⟩] = Except.ok ctxA ∧
      pg_decode_commit_txn 110000 ctxA ⟨100⟩ 0x0000000100000040 = Except.ok ctxB ∧
      ctxB.written =
        ["xid 100: lsn:1/00000040 inserts:2 deletes:1 updates:0 truncates:0 relations truncated:0"] := by
  obtain ⟨ctx1, h1, h2⟩ := commit_txn_text 110000 ⟨[], some ⟨2, 1, 0, 0, 0, false, true⟩, [], []⟩
    ⟨2, 1, 0, 0, 0, false, true⟩ ⟨100⟩ 0x0000000100000040 (by decide) rfl (by decide)
  refine ⟨⟨[], some ⟨2, 1, 0, 0, 0, false, true⟩, [], []⟩, ctx1, rfl, rfl, h1, ?_⟩
  rw [h2]
  rfl

/-- C7: for every 64-bit commit position `p`, the `lsn:` field of the line a
COMMIT appends is `hi`, a slash, and `lo`, where `hi` is the hexadecimal
rendering of `p / 2^32` without padding (it denotes that number and has no
leading zero unless it is the single digit 0) and `lo` is `p % 2^32` as
exactly 8 hexadecimal digits. -/
theorem commit_txn_lsn_field (V : Nat) (ctx : LogicalDecodingContext)
    (data : CommitInfoDecodingData) (txn : ReorderBufferTXN) (p : Nat)
    (hp : p < 2 ^ 64) (h : ctx.output_plugin_private = some data)
    (hne : ¬ (data.skip_empty_xacts = true ∧ data.xact_wrote_changes = false)) :
    ∃ ctx1 hi lo rest,
      pg_decode_commit_txn V ctx txn p = Except.ok ctx1 ∧
      ctx1.written = ctx.written ++
        [String.mk ("xid ".data ++ decimal (txn.xid % 2 ^ 32) ++ ": lsn:".data ++
          hi ++ '/' :: lo ++ ' ' :: rest)] ∧
      (∀ c ∈ hi ++ lo, isUpperHexDigit c = true) ∧
      hi ≠ [] ∧ (hi = ['0'] ∨ hi.head? ≠ some '0') ∧ hexValue hi = p / 2 ^ 32 ∧
      lo.length = 8 ∧ hexValue lo = p % 2 ^ 32 := by
  have hc : (data.skip_empty_xacts && !data.xact_wrote_changes) = false := by
    cases hs : data.skip_empty_xacts <;> cases hw : data.xact_wrote_changes <;> simp_all
  have hhi : (p >>> 32) % 2 ^ 32 % 2 ^ 32 = p / 2 ^ 32 := by
    rw [Nat.shiftRight_eq_div_pow]; omega
  have hlo : p % 2 ^ 32 % 2 ^ 32 = p % 2 ^ 32 := by omega
  obtain ⟨a1, a2, a3, a4⟩ := hexUpper_facts (p / 2 ^ 32)
  obtain ⟨b1, b2, b3⟩ := hex8_facts (p % 2 ^ 32) (Nat.mod_lt _ (by decide))
  have hall : ∀ c ∈ hexUpper (p / 2 ^ 32) ++ hex8 (p % 2 ^ 32), isUpperHexDigit c = true := by
    intro c hc
    rcases List.mem_append.mp hc with hc | hc
    · exact a2 c hc
    · exact b2 c hc
  by_cases hV : 110000 ≤ V
  · have hrun : pg_decode_commit_txn V ctx txn p = Except.ok
        { ctx with
          out := "xid ".data ++ decimal (txn.xid % 2 ^ 32) ++ ": lsn:".data ++
            hexUpper (p / 2 ^ 32) ++ "/".data ++ hex8 (p % 2 ^ 32) ++
            " inserts:".data ++ decimal (data.nb_insert % 2 ^ 64) ++
            " deletes:".data ++ decimal (data.nb_delete % 2 ^ 64) ++
            " updates:".data ++ decimal (data.nb_update % 2 ^ 64) ++
            " truncates:".data ++ decimal (data.nb_truncate % 2 ^ 64) ++
            " relations truncated:".data ++ decimal (data.nb_rel_truncated % 2 ^ 64),
          written := ctx.written ++ [String.mk
            ("xid ".data ++ decimal (txn.xid % 2 ^ 32) ++ ": lsn:".data ++
            hexUpper (p / 2 ^ 32) ++ "/".data ++ hex8 (p % 2 ^ 32) ++
            " inserts:".data ++ decimal (data.nb_insert % 2 ^ 64) ++
            " deletes:".data ++ decimal (data.nb_delete % 2 ^ 64) ++
            " updates:".data ++ decimal (data.nb_update % 2 ^ 64) ++
            " truncates:".data ++ decimal (data.nb_truncate % 2 ^ 64) ++
            " relations truncated:".data ++ decimal (data.nb_rel_truncated % 2 ^ 64))] } := by
      simp only [pg_decode_commit_txn, h, hc, OutputPluginPrepareWrite, OutputPluginWrite,
        if_pos hV, appendStringInfo_commit, hhi, hlo, Bool.false_eq_true, if_false]
    exact ⟨_, hexUpper (p / 2 ^ 32), hex8 (p % 2 ^ 32),
      "inserts:".data ++ decimal (data.nb_insert % 2 ^ 64) ++
      " deletes:".data ++ decimal (data.nb_delete % 2 ^ 64) ++
      " updates:".data ++ decimal (data.nb_update % 2 ^ 64) ++
      " truncates:".data ++ decimal (data.nb_truncate % 2 ^ 64) ++
      " relations truncated:".data ++ decimal (data.nb_rel_truncated % 2 ^ 64),
      hrun, by simp, hall, a1, a4, a3, b1, b3⟩
  · have hrun : pg_decode_commit_txn V ctx txn p = Except.ok
        { ctx with
          out := "xid ".data ++ decimal (txn.xid % 2 ^ 32) ++ ": lsn:".data ++
            hexUpper (p / 2 ^ 32) ++ "/".data ++ hex8 (p % 2 ^ 32) ++
            " inserts:".data ++ decimal (data.nb_insert % 2 ^ 64) ++
            " deletes:".data ++ decimal (data.nb_delete % 2 ^ 64) ++
            " updates:".data ++ decimal (data.nb_update % 2 ^ 64),
          written := ctx.written ++ [String.mk
            ("xid ".data ++ decimal (txn.xid % 2 ^ 32) ++ ": lsn:".data ++
            hexUpper (p / 2 ^ 32) ++ "/".data ++ hex8 (p % 2 ^ 32) ++
            " inserts:".data ++ decimal (data.nb_insert % 2 ^ 64) ++
            " deletes:".data ++ decimal (data.nb_delete % 2 ^ 64) ++
            " updates:".data ++ decimal (data.nb_update % 2 ^ 64))] } := by
      simp only [pg_decode_commit_txn, h, hc, OutputPluginPrepareWrite, OutputPluginWrite,
        if_neg hV, appendStringInfo_commit_short, hhi, hlo, Bool.false_eq_true, if_false]
    exact ⟨_, hexUpper (p / 2 ^ 32), hex8 (p % 2 ^ 32),
      "inserts:".data ++ decimal (data.nb_insert % 2 ^ 64) ++
      " deletes:".data ++ decimal (data.nb_delete % 2 ^ 64) ++
      " updates:".data ++ decimal (data.nb_update % 2 ^ 64),
      hrun, by simp, hall, a1, a4, a3, b1, b3⟩

/-- Witness of C7 at the commit position 0x0000000100000040. -/
theorem commit_txn_lsn_field_witness :
    ∃ ctx1 hi lo rest,
      pg_decode_commit_txn 110000 ⟨[], some ⟨2, 1, 0, 0, 0, false, true⟩, [], []⟩ ⟨100⟩
        0x0000000100000040 = Except.ok ctx1 ∧
      ctx1.written = [] ++
        [String.mk ("xid ".data ++ decimal (100 % 2 ^ 32) ++ ": lsn:".data ++
          hi ++ '/' :: lo ++ ' ' :: rest)] ∧
      (∀ c ∈ hi ++ lo, isUpperHexDigit c = true) ∧
      hi ≠ [] ∧ (hi = ['0'] ∨ hi.head? ≠ some '0') ∧ hexValue hi = 0x0000000100000040 / 2 ^ 32 ∧
      lo.length = 8 ∧ hexValue lo = 0x0000000100000040 % 2 ^ 32 :=
  commit_txn_lsn_field 110000 ⟨[], some ⟨2, 1, 0, 0, 0, false, true⟩, [], []⟩
    ⟨2, 1, 0, 0, 0, false, true⟩ ⟨100⟩ 0x0000000100000040 (by decide) rfl (by decide)

/-! ## Runs of calls -/

theorem runCallbacks_append (V : Nat) (A : Bool) :
    ∀ (xs ys : List Callback) (ctx ctx1 : LogicalDecodingContext),
      runCallbacks V A ctx xs = Except.ok ctx1 →
      runCallbacks V A ctx (xs ++ ys) = runCallbacks V A ctx1 ys := by
  intro xs
  induction xs with
  | nil =>
    intro ys ctx ctx1 h
    simp only [runCallbacks, Except.ok.injEq] at h
    simp [h]
  | cons x rest ih =>
    intro ys ctx ctx1 h
    simp only [List.cons_append, runCallbacks] at h ⊢
    cases hx : Callback.call V A ctx x with
    | error e => simp [hx] at h
    | ok c =>
      simp only [hx] at h ⊢
      exact ih ys c ctx1 h

theorem call_keeps_flag (V : Nat) (A : Bool) (ctx ctx1 : LogicalDecodingContext)
    (data : CommitInfoDecodingData) (cb : Callback)
    (h : ctx.output_plugin_private = some data)
    (hrun : cb.call V A ctx = Except.ok ctx1) :
    ∃ data1, ctx1.output_plugin_private = some data1 ∧
      data1.skip_empty_xacts = data.skip_empty_xacts := by
  cases cb with
  | begin_cb txn =>
    simp only [Callback.call, begin_txn_eq ctx data txn h, Except.ok.injEq] at hrun
    subst hrun
    exact ⟨_, rfl, rfl⟩
  | change_cb txn rel change =>
    obtain ⟨action⟩ := change
    cases action <;> cases A <;>
      simp only [Callback.call, pg_decode_change, h, Except.ok.injEq, Bool.false_eq_true,
        if_false, if_true, reduceCtorEq] at hrun <;>
      (subst hrun; exact ⟨_, rfl, rfl⟩)
  | truncate_cb txn n rels change =>
    simp only [Callback.call, pg_decode_truncate, h, Except.ok.injEq] at hrun
    subst hrun
    exact ⟨_, rfl, rfl⟩
  | commit_cb txn lsn =>
    by_cases hc : data.skip_empty_xacts = true ∧ data.xact_wrote_changes = false
    · simp only [Callback.call, commit_txn_suppressed V ctx data txn lsn h hc.1 hc.2,
        Except.ok.injEq] at hrun
      subst hrun
      exact ⟨data, h, rfl⟩
    · obtain ⟨line, hl⟩ := commit_txn_emits V ctx data txn lsn h hc
      simp only [Callback.call, hl, Except.ok.injEq] at hrun
      subst hrun
      exact ⟨data, h, rfl⟩

theorem runCallbacks_keeps_flag (V : Nat) (A : Bool) :
    ∀ (cbs : List Callback) (ctx ctx1 : LogicalDecodingContext) (data : CommitInfoDecodingData),
      ctx.output_plugin_private = some data →
      runCallbacks V A ctx cbs = Except.ok ctx1 →
      ∃ data1, ctx1.output_plugin_private = some data1 ∧
        data1.skip_empty_xacts = data.skip_empty_xacts := by
  intro cbs
  induction cbs with
  | nil =>
    intro ctx ctx1 data h hrun
    simp only [runCallbacks, Except.ok.injEq] at hrun
    subst hrun
    exact ⟨data, h, rfl⟩
  | cons cb rest ih =>
    intro ctx ctx1 data h hrun
    simp only [runCallbacks] at hrun
    cases hx : Callback.call V A ctx cb with
    | error e => simp [hx] at hrun
    | ok c =>
      simp only [hx] at hrun
      obtain ⟨d, hd, hs⟩ := call_keeps_flag V A ctx c data cb h hx
      obtain ⟨d1, hd1, hs1⟩ := ih c ctx1 d hd hrun
      exact ⟨d1, hd1, hs1.trans hs⟩

theorem startup_private (parse_bool : String → Option Bool) (ctx : LogicalDecodingContext)
    (opt : OutputPluginOptions) (i : Bool) :
    ∃ data, (pg_decode_startup parse_bool ctx opt i).ctx.output_plugin_private = some data ∧
      (pg_decode_startup parse_bool ctx opt i).ctx.written = ctx.written :=
  ⟨_, rfl, rfl⟩

/-- C5: in a session started with `skip_empty_xacts = true`, after every
history of calls that returned, a BEGIN followed directly by a COMMIT writes
nothing. -/
theorem empty_txn_suppressed (V : Nat) (A : Bool) (parse_bool : String → Option Bool)
    (ctx : LogicalDecodingContext) (opt : OutputPluginOptions) (i : Bool)
    (history : List Callback) (ctxh : LogicalDecodingContext)
    (txn1 txn2 : ReorderBufferTXN) (lsn : Nat)
    (hok : (pg_decode_startup parse_bool ctx opt i).error = none)
    (hskip : (pg_decode_startup parse_bool ctx opt i).ctx.output_plugin_private.map
      CommitInfoDecodingData.skip_empty_xacts = some true)
    (hrun : runCallbacks V A (pg_decode_startup parse_bool ctx opt i).ctx history =
      Except.ok ctxh) :
    ∃ ctx1, runCallbacks V A ctxh [Callback.begin_cb txn1, Callback.commit_cb txn2 lsn] =
        Except.ok ctx1 ∧ ctx1.written = ctxh.written := by
  obtain ⟨d0, hd0, _⟩ := startup_private parse_bool ctx opt i
  rw [hd0] at hskip
  simp only [Option.map_some', Option.some.injEq] at hskip
  obtain ⟨d, hd, hs⟩ := runCallbacks_keeps_flag V A history _ ctxh d0 hd0 hrun
  rw [hskip] at hs
  refine ⟨{ ctxh with output_plugin_private := some ⟨0, 0, 0, 0, 0, d.skip_empty_xacts, false⟩ },
    ?_, rfl⟩
  simp only [runCallbacks, Callback.call, begin_txn_eq ctxh d txn1 hd]
  rw [commit_txn_suppressed V _ ⟨0, 0, 0, 0, 0, d.skip_empty_xacts, false⟩ txn2 lsn rfl hs rfl]

/-- Witness of C5: startup with `skip-empty-xacts=true`, BEGIN of transaction
101, COMMIT of transaction 101: nothing is written. -/
theorem empty_txn_suppressed_witness :
    (pg_decode_startup host_parse_bool (freshContext [⟨"skip-empty-xacts", some "true"⟩])
      hostOptions false).error = none ∧
    ∃ ctx1, runCallbacks 110000 true
        (pg_decode_startup host_parse_bool (freshContext [⟨"skip-empty-xacts", some "true"⟩])
          hostOptions false).ctx
        [Callback.begin_cb ⟨101⟩, Callback.commit_cb ⟨101⟩ 0x0000000100000040] =
        Except.ok ctx1 ∧ ctx1.written = [] :=
  ⟨by decide,
   empty_txn_suppressed 110000 true host_parse_bool
    (freshContext [⟨"skip-empty-xacts", some "true"⟩]) hostOptions false []
    (pg_decode_startup host_parse_bool (freshContext [⟨"skip-empty-xacts", some "true"⟩])
      hostOptions false).ctx ⟨101⟩ ⟨101⟩ 0x0000000100000040 (by decide) (by decide) rfl⟩

/-! ## Whole windows -/

theorem lastTruncate_range :
    ∀ (evs : List Callback) (n : Int), (∀ c ∈ evs, c.isWindowEvent = true) →
      lastTruncate evs = some n → 0 ≤ n ∧ n < 2 ^ 31 := by
  intro evs
  induction evs with
  | nil => intro n _ h; simp [lastTruncate] at h
  | cons c rest ih =>
    intro n hall h
    have hrest : ∀ x ∈ rest, x.isWindowEvent = true :=
      fun x hx => hall x (List.mem_cons_of_mem _ hx)
    have hc := hall c (List.mem_cons_self _ _)
    simp only [lastTruncate] at h
    cases hl : lastTruncate rest with
    | some m =>
      simp only [hl, Option.some.injEq] at h
      subst h
      exact ih m hrest hl
    | none =>
      simp only [hl] at h
      cases c with
      | truncate_cb txn k rels change =>
        simp only [Option.some.injEq] at h
        subst h
        simpa [Callback.isWindowEvent] using hc
      | begin_cb txn => simp at h
      | change_cb txn rel change => simp at h
      | commit_cb txn lsn => simp at h

theorem runCallbacks_singleton (V : Nat) (A : Bool) (ctx : LogicalDecodingContext)
    (cb : Callback) : runCallbacks V A ctx [cb] = cb.call V A ctx := by
  simp only [runCallbacks]
  cases cb.call V A ctx <;> rfl

theorem window_run (V : Nat) (A : Bool) (ctx : LogicalDecodingContext)
    (data : CommitInfoDecodingData) (w : Window) (hV : 110000 ≤ V)
    (h : ctx.output_plugin_private = some data) (hs : data.skip_empty_xacts = false)
    (hev : ∀ c ∈ w.events, c.isWindowEvent = true) :
    ∃ ctx1 data1, runCallbacks V A ctx w.calls = Except.ok ctx1 ∧
      ctx1.output_plugin_private = some data1 ∧ data1.skip_empty_xacts = false ∧
      ctx1.written = ctx.written ++ [w.expectedLine] := by
  have hbegin := begin_txn_eq ctx data w.txn h
  have hrun := run_events V A w.events
    { ctx with output_plugin_private := some ⟨0, 0, 0, 0, 0, data.skip_empty_xacts, false⟩ }
    0 0 0 0 0 data.skip_empty_xacts false hev rfl
  have happ := runCallbacks_append V A w.events [Callback.commit_cb w.txn w.commit_lsn] _ _ hrun
  have hrel : (match lastTruncate w.events with
      | some n => n.toNat
      | none => 0) % 2 ^ 64 = ((lastTruncate w.events).getD 0).toNat := by
    cases hl : lastTruncate w.events with
    | none => simp
    | some n =>
      have hr := lastTruncate_range w.events n hev hl
      have hlt : n.toNat < 2 ^ 31 := (Int.toNat_lt hr.1).2 (by exact_mod_cast hr.2)
      simp only [Option.getD_some]
      exact Nat.mod_eq_of_lt (Nat.lt_of_lt_of_le hlt (by norm_num))
  have hcommit := commit_txn_line V
    { ctx with
      output_plugin_private := some
        ⟨(0 + countChanges REORDER_BUFFER_CHANGE_INSERT w.events) % 2 ^ 64,
         (0 + countChanges REORDER_BUFFER_CHANGE_DELETE w.events) % 2 ^ 64,
         (0 + countChanges REORDER_BUFFER_CHANGE_UPDATE w.events) % 2 ^ 64,
         (0 + countTruncates w.events) % 2 ^ 64,
         (match lastTruncate w.events with
          | some n => n.toNat
          | none => 0),
         data.skip_empty_xacts, false || !w.events.isEmpty⟩ }
    _ w.txn w.commit_lsn hV rfl (by simp [hs])
  have hfirst : runCallbacks V A ctx w.calls = runCallbacks V A
      { ctx with output_plugin_private := some ⟨0, 0, 0, 0, 0, data.skip_empty_xacts, false⟩ }
      (w.events ++ [Callback.commit_cb w.txn w.commit_lsn]) := by
    simp only [Window.calls, runCallbacks, Callback.call, hbegin]
  have hall := hfirst.trans (happ.trans ((runCallbacks_singleton V A _ _).trans hcommit))
  refine ⟨_, _, hall, rfl, hs, ?_⟩
  simp only [Window.expectedLine, hrel, Nat.zero_add, Nat.mod_mod]

theorem windows_run (V : Nat) (A : Bool) (hV : 110000 ≤ V) :
    ∀ (ws : List Window) (ctx : LogicalDecodingContext) (data : CommitInfoDecodingData),
      ctx.output_plugin_private = some data → data.skip_empty_xacts = false →
      (∀ w ∈ ws, ∀ c ∈ w.events, c.isWindowEvent = true) →
      ∃ ctx1, runCallbacks V A ctx (ws.flatMap Window.calls) = Except.ok ctx1 ∧
        ctx1.written = ctx.written ++ ws.map Window.expectedLine := by
  intro ws
  induction ws with
  | nil =>
    intro ctx data _ _ _
    exact ⟨ctx, by simp [runCallbacks], by simp⟩
  | cons w rest ih =>
    intro ctx data h hs hev
    obtain ⟨c1, d1, r1, p1, s1, w1⟩ := window_run V A ctx data w hV h hs
      (hev w (List.mem_cons_self _ _))
    obtain ⟨c2, r2, w2⟩ := ih c1 d1 p1 s1 (fun x hx => hev x (List.mem_cons_of_mem _ hx))
    refine ⟨c2, ?_, ?_⟩
    · rw [List.flatMap_cons, runCallbacks_append V A _ _ ctx c1 r1]
      exact r2
    · rw [w2, w1]
      simp

/-- C1: after a startup that succeeds with `skip_empty_xacts = false`, the
calls of k consecutive transaction windows (BEGIN, any list of Insert, Update,
Delete and truncate notifications, COMMIT) all return and append exactly k
lines, in window order, the i-th being the summary line of window i alone:
its transaction id and commit position, the numbers (modulo 2^64) of its own
Insert, Delete, Update and truncate notifications, and the relation count of
its own last truncate notification (0 when it has none). -/
theorem windows_output (V : Nat) (A : Bool) (parse_bool : String → Option Bool)
    (ctx : LogicalDecodingContext) (opt : OutputPluginOptions) (i : Bool) (ws : List Window)
    (hV : 110000 ≤ V)
    (hok : (pg_decode_startup parse_bool ctx opt i).error = none)
    (hskip : (pg_decode_startup parse_bool ctx opt i).ctx.output_plugin_private.map
      CommitInfoDecodingData.skip_empty_xacts = some false)
    (hev : ∀ w ∈ ws, ∀ c ∈ w.events, c.isWindowEvent = true) :
    ∃ ctx1, runCallbacks V A (pg_decode_startup parse_bool ctx opt i).ctx
        (ws.flatMap Window.calls) = Except.ok ctx1 ∧
      ctx1.written = ctx.written ++ ws.map Window.expectedLine ∧
      (ws.map Window.expectedLine).length = ws.length := by
  obtain ⟨d0, hd0, hw0⟩ := startup_private parse_bool ctx opt i
  rw [hd0] at hskip
  simp only [Option.map_some', Option.some.injEq] at hskip
  obtain ⟨c1, r1, w1⟩ := windows_run V A hV ws _ d0 hd0 hskip hev
  exact ⟨c1, r1, by rw [w1, hw0], by simp⟩

/-- Witness of C1: two windows after a startup without options; the second
line shows nothing of the first window. -/
theorem windows_output_witness :
    ∃ ctx1, runCallbacks 110000 true
        (pg_decode_startup host_parse_bool (freshContext []) hostOptions false).ctx
        [Callback.begin_cb ⟨100⟩,
         Callback.change_cb ⟨100⟩ ⟨1⟩ ⟨REORDER_BUFFER_CHANGE_INSERT⟩,
         Callback.change_cb ⟨100⟩ ⟨1⟩ ⟨REORDER_BUFFER_CHANGE_INSERT⟩,
         Callback.change_cb ⟨100⟩ ⟨1⟩ ⟨REORDER_BUFFER_CHANGE_DELETE⟩,
         Callback.commit_cb ⟨100⟩ 0x0000000100000040,
         Callback.begin_cb ⟨101⟩,
         Callback.truncate_cb ⟨101⟩ 3 [⟨1⟩, ⟨2⟩, ⟨3⟩] ⟨REORDER_BUFFER_CHANGE_TRUNCATE⟩,
         Callback.change_cb ⟨101⟩ ⟨2⟩ ⟨REORDER_BUFFER_CHANGE_UPDATE⟩,
         Callback.truncate_cb ⟨101⟩ 5 [⟨1⟩, ⟨2⟩, ⟨3⟩, ⟨4⟩, ⟨5⟩] ⟨REORDER_BUFFER_CHANGE_TRUNCATE⟩,
         Callback.commit_cb ⟨101⟩ 0x00000001000001A8] = Except.ok ctx1 ∧
      ctx1.written =
        ["xid 100: lsn:1/00000040 inserts:2 deletes:1 updates:0 truncates:0 relations truncated:0",
         "xid 101: lsn:1/000001A8 inserts:0 deletes:0 updates:1 truncates:2 relations truncated:5"] := by
  obtain ⟨c, hrun, hw, _⟩ := windows_output 110000 true host_parse_bool (freshContext [])
    hostOptions false
    [⟨⟨100⟩, [Callback.change_cb ⟨100⟩ ⟨1⟩ ⟨REORDER_BUFFER_CHANGE_INSERT⟩,
        Callback.change_cb ⟨100⟩ ⟨1⟩ ⟨REORDER_BUFFER_CHANGE_INSERT⟩,
        Callback.change_cb ⟨100⟩ ⟨1⟩ ⟨REORDER_BUFFER_CHANGE_DELETE⟩], 0x0000000100000040⟩,
     ⟨⟨101⟩, [Callback.truncate_cb ⟨101⟩ 3 [⟨1⟩, ⟨2⟩, ⟨3⟩] ⟨REORDER_BUFFER_CHANGE_TRUNCATE⟩,
        Callback.change_cb ⟨101⟩ ⟨2⟩ ⟨REORDER_BUFFER_CHANGE_UPDATE⟩,
        Callback.truncate_cb ⟨101⟩ 5 [⟨1⟩, ⟨2⟩, ⟨3⟩, ⟨4⟩, ⟨5⟩] ⟨REORDER_BUFFER_CHANGE_TRUNCATE⟩],
      0x00000001000001A8⟩]
    (by decide) (by decide) (by decide) (by decide)
  refine ⟨c, hrun, ?_⟩
  rw [hw]
  rfl

/-! ## Startup options -/

theorem errmsg_unknown (name value : String) :
    errmsg "option \"%s\" = \"%s\" is unknown" [FormatArg.str name, FormatArg.str value] =
      "option \"" ++ name ++ "\" = \"" ++ value ++ "\" is unknown" := by
  apply String.ext
  simp [errmsg, formatText, ConvSpec.pad, String.data_append]

theorem errmsg_could_not_parse (value name : String) :
    errmsg "could not parse value \"%s\" for parameter \"%s\""
        [FormatArg.str value, FormatArg.str name] =
      "could not parse value \"" ++ value ++ "\" for parameter \"" ++ name ++ "\"" := by
  apply String.ext
  simp [errmsg, formatText, ConvSpec.pad, String.data_append]

theorem startup_options_accepted (parse_bool : String → Option Bool) :
    ∀ (pre rest : List DefElem) (data : CommitInfoDecodingData),
      (∀ e ∈ pre, e.accepted parse_bool = true) →
      ∃ b, pg_decode_startup_options parse_bool (pre ++ rest) data =
        pg_decode_startup_options parse_bool rest { data with skip_empty_xacts := b } := by
  intro pre
  induction pre with
  | nil => intro rest data _; exact ⟨data.skip_empty_xacts, rfl⟩
  | cons e pre ih =>
    intro rest data h
    have he := h e (List.mem_cons_self _ _)
    have hpre : ∀ x ∈ pre, x.accepted parse_bool = true :=
      fun x hx => h x (List.mem_cons_of_mem _ hx)
    obtain ⟨name, arg⟩ := e
    simp only [DefElem.accepted, Bool.and_eq_true, decide_eq_true_eq] at he
    obtain ⟨hname, harg⟩ := he
    subst hname
    cases arg with
    | none =>
      obtain ⟨b, hb⟩ := ih rest { data with skip_empty_xacts := false } hpre
      refine ⟨b, ?_⟩
      rw [← hb]
      simp [pg_decode_startup_options]
    | some v =>
      cases hv : parse_bool v with
      | none => simp [hv] at harg
      | some b0 =>
        obtain ⟨b, hb⟩ := ih rest { data with skip_empty_xacts := b0 } hpre
        refine ⟨b, ?_⟩
        rw [← hb]
        simp [pg_decode_startup_options, hv]

/-- C9 as amended: when the first option the startup callback cannot read has
a name other than `skip-empty-xacts`, startup raises an error with the code
`ERRCODE_INVALID_PARAMETER_VALUE` (the code of the unparsable-value error as
well) and the message `option "<name>" = "<value>" is unknown`, where
`<value>` is the text `(null)` for an option without a value. -/
theorem startup_unknown_option (parse_bool : String → Option Bool)
    (ctx : LogicalDecodingContext) (opt : OutputPluginOptions) (i : Bool)
    (pre rest : List DefElem) (elem : DefElem)
    (hopts : ctx.output_plugin_options = pre ++ elem :: rest)
    (hpre : ∀ e ∈ pre, e.accepted parse_bool = true)
    (hname : elem.defname ≠ "skip-empty-xacts") :
    (pg_decode_startup parse_bool ctx opt i).error =
      some ⟨ERRCODE_INVALID_PARAMETER_VALUE,
        "option \"" ++ elem.defname ++ "\" = \"" ++ elem.arg.getD "(null)" ++ "\" is unknown"⟩ := by
  obtain ⟨b, hb⟩ := startup_options_accepted parse_bool pre (elem :: rest)
    ⟨0, 0, 0, 0, 0, false, false⟩ hpre
  simp only [pg_decode_startup, hopts, hb, pg_decode_startup_options, hname, if_false,
    errmsg_unknown]

/-- Witness of C9 as amended: the option `foo=bar`. -/
theorem startup_unknown_option_witness :
    (pg_decode_startup host_parse_bool (freshContext [⟨"foo", some "bar"⟩]) hostOptions
      false).error =
      some ⟨ERRCODE_INVALID_PARAMETER_VALUE, "option \"foo\" = \"bar\" is unknown"⟩ :=
  startup_unknown_option host_parse_bool (freshContext [⟨"foo", some "bar"⟩]) hostOptions false
    [] [] ⟨"foo", some "bar"⟩ rfl (by decide) (by decide)

/-- Counterexample to C9 as stated: the error raised for `foo=bar` has the
same error code as the error raised for `skip-empty-xacts=notabool`, so the
unknown-option failure is not of a kind distinct from the invalid-value
failure. -/
theorem unknown_option_code_not_distinct :
    ¬ ((pg_decode_startup host_parse_bool (freshContext [⟨"foo", some "bar"⟩]) hostOptions
          false).error.map ErrorData.sqlerrcode ≠
        (pg_decode_startup host_parse_bool
          (freshContext [⟨"skip-empty-xacts", some "notabool"⟩]) hostOptions
          false).error.map ErrorData.sqlerrcode) ∧
    (pg_decode_startup host_parse_bool (freshContext [⟨"foo", some "bar"⟩]) hostOptions
      false).error.map ErrorData.sqlerrcode = some ERRCODE_INVALID_PARAMETER_VALUE := by
  decide

/-- C10: for an option `skip-empty-xacts` with a value, read after options
that raise no error: if the boolean parser rejects the value, startup raises an
error with the code `ERRCODE_INVALID_PARAMETER_VALUE` whose message is `could
not parse value "<value>" for parameter "skip-empty-xacts"`; if the parser
accepts it with result `b`, startup goes on to the next option with
`skip_empty_xacts = b`, and returns without error with `skip_empty_xacts = b`
when the option is the last one. -/
theorem startup_skip_empty_xacts_value (parse_bool : String → Option Bool)
    (ctx : LogicalDecodingContext) (opt : OutputPluginOptions) (i : Bool)
    (pre rest : List DefElem) (v : String)
    (hopts : ctx.output_plugin_options = pre ++ ⟨"skip-empty-xacts", some v⟩ :: rest)
    (hpre : ∀ e ∈ pre, e.accepted parse_bool = true) :
    (parse_bool v = none →
      (pg_decode_startup parse_bool ctx opt i).error =
        some ⟨ERRCODE_INVALID_PARAMETER_VALUE,
          "could not parse value \"" ++ v ++ "\" for parameter \"" ++ "skip-empty-xacts" ++
            "\""⟩) ∧
    (∀ b, parse_bool v = some b →
      (pg_decode_startup parse_bool ctx opt i).error =
        (pg_decode_startup_options parse_bool rest ⟨0, 0, 0, 0, 0, b, false⟩).2 ∧
      (pg_decode_startup parse_bool ctx opt i).ctx.output_plugin_private =
        some (pg_decode_startup_options parse_bool rest ⟨0, 0, 0, 0, 0, b, false⟩).1 ∧
      (rest = [] →
        (pg_decode_startup parse_bool ctx opt i).error = none ∧
        (pg_decode_startup parse_bool ctx opt i).ctx.output_plugin_private =
          some ⟨0, 0, 0, 0, 0, b, false⟩)) := by
  obtain ⟨b0, hb⟩ := startup_options_accepted parse_bool pre
    (⟨"skip-empty-xacts", some v⟩ :: rest) ⟨0, 0, 0, 0, 0, false, false⟩ hpre
  constructor
  · intro hv
    simp only [pg_decode_startup, hopts, hb, pg_decode_startup_options, if_true, hv,
      errmsg_could_not_parse]
  · intro b hv
    have hrun : pg_decode_startup_options parse_bool
        (pre ++ ⟨"skip-empty-xacts", some v⟩ :: rest) ⟨0, 0, 0, 0, 0, false, false⟩ =
        pg_decode_startup_options parse_bool rest ⟨0, 0, 0, 0, 0, b, false⟩ := by
      rw [hb]
      simp only [pg_decode_startup_options, if_true, hv]
    refine ⟨?_, ?_, ?_⟩
    · simp only [pg_decode_startup, hopts, hrun]
    · simp only [pg_decode_startup, hopts, hrun]
    · intro hrest
      subst hrest
      simp only [pg_decode_startup, hopts, hrun, pg_decode_startup_options, and_self]

/-- Witness of C10: `skip-empty-xacts=notabool` raises the invalid-value
error, and `skip-empty-xacts=on` sets the flag. -/
theorem startup_skip_empty_xacts_value_witness :
    (pg_decode_startup host_parse_bool (freshContext [⟨"skip-empty-xacts", some "notabool"⟩])
      hostOptions false).error =
      some ⟨ERRCODE_INVALID_PARAMETER_VALUE,
        "could not parse value \"notabool\" for parameter \"skip-empty-xacts\""⟩ ∧
    (pg_decode_startup host_parse_bool (freshContext [⟨"skip-empty-xacts", some "on"⟩])
      hostOptions false).error = none ∧
    (pg_decode_startup host_parse_bool (freshContext [⟨"skip-empty-xacts", some "on"⟩])
      hostOptions false).ctx.output_plugin_private = some ⟨0, 0, 0, 0, 0, true, false⟩ :=
  ⟨(startup_skip_empty_xacts_value host_parse_bool
      (freshContext [⟨"skip-empty-xacts", some "notabool"⟩]) hostOptions false [] [] "notabool"
      rfl (by decide)).1 (by decide),
   ((startup_skip_empty_xacts_value host_parse_bool
      (freshContext [⟨"skip-empty-xacts", some "on"⟩]) hostOptions false [] [] "on"
      rfl (by decide)).2 true (by decide)).2.2 rfl⟩

/-! ## Startup as a function of the option list -/

theorem startup_options_frame (parse_bool : String → Option Bool) :
    ∀ (opts : List DefElem) (data : CommitInfoDecodingData),
      (pg_decode_startup_options parse_bool opts data).1 =
        { data with
          skip_empty_xacts := (pg_decode_startup_options parse_bool opts data).1.skip_empty_xacts } := by
  intro opts
  induction opts with
  | nil => intro data; rfl
  | cons e rest ih =>
    intro data
    obtain ⟨name, arg⟩ := e
    by_cases hname : name = "skip-empty-xacts"
    · cases arg with
      | none =>
        simp only [pg_decode_startup_options, hname, if_true]
        exact ih _
      | some v =>
        cases hv : parse_bool v with
        | none => simp only [pg_decode_startup_options, hname, if_true, hv]
        | some b =>
          simp only [pg_decode_startup_options, hname, if_true, hv]
          exact ih _
    · simp only [pg_decode_startup_options, hname, if_false]

theorem startup_private_record (parse_bool : String → Option Bool)
    (ctx : LogicalDecodingContext) (opt : OutputPluginOptions) (i : Bool) :
    ∃ b, (pg_decode_startup parse_bool ctx opt i).ctx.output_plugin_private =
      some ⟨0, 0, 0, 0, 0, b, false⟩ := by
  refine ⟨(pg_decode_startup_options parse_bool ctx.output_plugin_options
    ⟨0, 0, 0, 0, 0, false, false⟩).1.skip_empty_xacts, ?_⟩
  have := startup_options_frame parse_bool ctx.output_plugin_options ⟨0, 0, 0, 0, 0, false, false⟩
  simp only [pg_decode_startup]
  rw [this]

/-- C11: startup on an empty option list returns without error with
`skip_empty_xacts = false`, and startup on the single option
`skip-empty-xacts` given without a value also returns without error with
`skip_empty_xacts = false`. -/
theorem startup_default_flag (parse_bool : String → Option Bool)
    (ctx : LogicalDecodingContext) (opt : OutputPluginOptions) (i : Bool) :
    ((pg_decode_startup parse_bool { ctx with output_plugin_options := [] } opt i).error = none ∧
      (pg_decode_startup parse_bool { ctx with output_plugin_options := [] } opt
        i).ctx.output_plugin_private = some ⟨0, 0, 0, 0, 0, false, false⟩) ∧
    ((pg_decode_startup parse_bool
        { ctx with output_plugin_options := [⟨"skip-empty-xacts", none⟩] } opt i).error = none ∧
      (pg_decode_startup parse_bool
        { ctx with output_plugin_options := [⟨"skip-empty-xacts", none⟩] } opt
        i).ctx.output_plugin_private = some ⟨0, 0, 0, 0, 0, false, false⟩) := by
  refine ⟨⟨rfl, rfl⟩, ?_, ?_⟩ <;>
    simp [pg_decode_startup, pg_decode_startup_options]

/-- C12 as amended: whenever startup raises an error, the private slot is not
left as it was: it holds the record allocated at the start of the call, with
the five counters 0 and `xact_wrote_changes` false, whatever it held before;
the rest of the context (options, output buffer, written messages) is as
before the call. -/
theorem startup_failure_slot (parse_bool : String → Option Bool)
    (ctx : LogicalDecodingContext) (opt : OutputPluginOptions) (i : Bool)
    (hfail : (pg_decode_startup parse_bool ctx opt i).error ≠ none) :
    (∃ b, (pg_decode_startup parse_bool ctx opt i).ctx.output_plugin_private =
      some ⟨0, 0, 0, 0, 0, b, false⟩) ∧
    (pg_decode_startup parse_bool ctx opt i).ctx.output_plugin_options =
      ctx.output_plugin_options ∧
    (pg_decode_startup parse_bool ctx opt i).ctx.out = ctx.out ∧
    (pg_decode_startup parse_bool ctx opt i).ctx.written = ctx.written :=
  ⟨startup_private_record parse_bool ctx opt i, rfl, rfl, rfl⟩

/-- Witness of C12 as amended: the option `foo=bar` on a context whose slot is
empty. -/
theorem startup_failure_slot_witness :
    (pg_decode_startup host_parse_bool (freshContext [⟨"foo", some "bar"⟩]) hostOptions
      false).error ≠ none ∧
    (∃ b, (pg_decode_startup host_parse_bool (freshContext [⟨"foo", some "bar"⟩]) hostOptions
      false).ctx.output_plugin_private = some ⟨0, 0, 0, 0, 0, b, false⟩) ∧
    (pg_decode_startup host_parse_bool (freshContext [⟨"foo", some "bar"⟩]) hostOptions
      false).ctx.output_plugin_options = [⟨"foo", some "bar"⟩] ∧
    (pg_decode_startup host_parse_bool (freshContext [⟨"foo", some "bar"⟩]) hostOptions
      false).ctx.out = [] ∧
    (pg_decode_startup host_parse_bool (freshContext [⟨"foo", some "bar"⟩]) hostOptions
      false).ctx.written = [] :=
  ⟨by decide,
   startup_failure_slot host_parse_bool (freshContext [⟨"foo", some "bar"⟩]) hostOptions false
    (by decide)⟩

/-- Counterexample to C12 as stated: startup on the option `foo=bar` raises an
error, the private slot was empty before the call and holds a record after
it. -/
theorem startup_failure_changes_slot :
    (pg_decode_startup host_parse_bool (freshContext [⟨"foo", some "bar"⟩]) hostOptions
      false).error ≠ none ∧
    (freshContext [⟨"foo", some "bar"⟩]).output_plugin_private = none ∧
    (pg_decode_startup host_parse_bool (freshContext [⟨"foo", some "bar"⟩]) hostOptions
      false).ctx.output_plugin_private ≠
      (freshContext [⟨"foo", some "bar"⟩]).output_plugin_private := by
  decide

/-! ## The effect of one call -/

theorem commit_txn_emits_uniform (V : Nat) (data : CommitInfoDecodingData)
    (txn : ReorderBufferTXN) (lsn : Nat)
    (hne : ¬ (data.skip_empty_xacts = true ∧ data.xact_wrote_changes = false)) :
    ∃ line : List Char, ∀ ctx : LogicalDecodingContext,
      ctx.output_plugin_private = some data →
      pg_decode_commit_txn V ctx txn lsn =
        Except.ok { ctx with out := line, written := ctx.written ++ [String.mk line] } := by
  have hc : (data.skip_empty_xacts && !data.xact_wrote_changes) = false := by
    cases hs : data.skip_empty_xacts <;> cases hw : data.xact_wrote_changes <;> simp_all
  by_cases hV : 110000 ≤ V
  · exact ⟨appendStringInfo []
        "xid %u: lsn:%X/%08X inserts:%lu deletes:%lu updates:%lu truncates:%lu relations truncated:%lu"
        [FormatArg.uint txn.xid, FormatArg.uint ((lsn >>> 32) % 2 ^ 32),
         FormatArg.uint (lsn % 2 ^ 32), FormatArg.uint data.nb_insert,
         FormatArg.uint data.nb_delete, FormatArg.uint data.nb_update,
         FormatArg.uint data.nb_truncate, FormatArg.uint data.nb_rel_truncated],
      fun ctx h => by
        simp only [pg_decode_commit_txn, h, hc, OutputPluginPrepareWrite, OutputPluginWrite,
          if_pos hV, Bool.false_eq_true, if_false]⟩
  · exact ⟨appendStringInfo [] "xid %u: lsn:%X/%08X inserts:%lu deletes:%lu updates:%lu"
        [FormatArg.uint txn.xid, FormatArg.uint ((lsn >>> 32) % 2 ^ 32),
         FormatArg.uint (lsn % 2 ^ 32), FormatArg.uint data.nb_insert,
         FormatArg.uint data.nb_delete, FormatArg.uint data.nb_update],
      fun ctx h => by
        simp only [pg_decode_commit_txn, h, hc, OutputPluginPrepareWrite, OutputPluginWrite,
          if_neg hV, Bool.false_eq_true, if_false]⟩

theorem call_returns (V : Nat) (A : Bool) (ctx : LogicalDecodingContext)
    (data : CommitInfoDecodingData) (cb : Callback)
    (h : ctx.output_plugin_private = some data) (hk : cb.hasRowKind = true) :
    ∃ ctx1, cb.call V A ctx = Except.ok ctx1 := by
  cases cb with
  | begin_cb txn => exact ⟨_, begin_txn_eq ctx data txn h⟩
  | change_cb txn rel change =>
    obtain ⟨action⟩ := change
    cases action <;> simp [Callback.hasRowKind] at hk <;>
      simp [Callback.call, pg_decode_change, h]
  | truncate_cb txn n rels change => simp [Callback.call, pg_decode_truncate, h]
  | commit_cb txn lsn =>
    by_cases hc : data.skip_empty_xacts = true ∧ data.xact_wrote_changes = false
    · exact ⟨_, commit_txn_suppressed V ctx data txn lsn h hc.1 hc.2⟩
    · obtain ⟨line, hl⟩ := commit_txn_emits V ctx data txn lsn h hc
      exact ⟨_, hl⟩

theorem call_effect (V : Nat) (A : Bool) (ctx ctx1 : LogicalDecodingContext)
    (data : CommitInfoDecodingData) (cb : Callback)
    (h : ctx.output_plugin_private = some data)
    (hrun : cb.call V A ctx = Except.ok ctx1) :
    ∃ data1, ctx1.output_plugin_private = some data1 ∧
      data1.skip_empty_xacts = data.skip_empty_xacts ∧
      (cb.isCommit = false → ctx1.written = ctx.written ∧ ctx1.out = ctx.out) ∧
      (cb.isCommit = true → data1 = data) ∧
      (cb.isBegin = true → data1.xact_wrote_changes = false ∧ data1.countersZero) ∧
      (cb.isBegin = false → data.xact_wrote_changes = true → data1.xact_wrote_changes = true) ∧
      (cb.isBegin = false → cb.isCommit = false → data1.xact_wrote_changes = true) := by
  cases cb with
  | begin_cb txn =>
    simp only [Callback.call, begin_txn_eq ctx data txn h, Except.ok.injEq] at hrun
    subst hrun
    refine ⟨_, rfl, rfl, ?_, ?_, ?_, ?_, ?_⟩ <;>
      simp [Callback.isCommit, Callback.isBegin, CommitInfoDecodingData.countersZero]
  | change_cb txn rel change =>
    obtain ⟨action⟩ := change
    cases action <;> cases A <;>
      simp only [Callback.call, pg_decode_change, h, Except.ok.injEq, Bool.false_eq_true,
        if_false, if_true, reduceCtorEq] at hrun <;>
      (subst hrun
       refine ⟨_, rfl, rfl, ?_, ?_, ?_, ?_, ?_⟩ <;>
         simp [Callback.isCommit, Callback.isBegin])
  | truncate_cb txn n rels change =>
    simp only [Callback.call, pg_decode_truncate, h, Except.ok.injEq] at hrun
    subst hrun
    refine ⟨_, rfl, rfl, ?_, ?_, ?_, ?_, ?_⟩ <;>
      simp [Callback.isCommit, Callback.isBegin]
  | commit_cb txn lsn =>
    by_cases hc : data.skip_empty_xacts = true ∧ data.xact_wrote_changes = false
    · simp only [Callback.call, commit_txn_suppressed V ctx data txn lsn h hc.1 hc.2,
        Except.ok.injEq] at hrun
      subst hrun
      refine ⟨data, h, rfl, ?_, ?_, ?_, ?_, ?_⟩ <;>
        simp [Callback.isCommit, Callback.isBegin]
    · obtain ⟨line, hl⟩ := commit_txn_emits V ctx data txn lsn h hc
      simp only [Callback.call, hl, Except.ok.injEq] at hrun
      subst hrun
      refine ⟨data, h, rfl, ?_, ?_, ?_, ?_, ?_⟩ <;>
        simp [Callback.isCommit, Callback.isBegin]

theorem call_keeps_zero_invariant (V : Nat) (A : Bool) (ctx ctx1 : LogicalDecodingContext)
    (data : CommitInfoDecodingData) (cb : Callback)
    (h : ctx.output_plugin_private = some data)
    (hinv : data.xact_wrote_changes = false → data.countersZero)
    (hrun : cb.call V A ctx = Except.ok ctx1) :
    ∃ data1, ctx1.output_plugin_private = some data1 ∧
      (data1.xact_wrote_changes = false → data1.countersZero) := by
  obtain ⟨d, hd, _, _, e4, e5, _, e7⟩ := call_effect V A ctx ctx1 data cb h hrun
  refine ⟨d, hd, ?_⟩
  intro hw
  cases hb : cb.isBegin with
  | true => exact (e5 hb).2
  | false =>
    cases hcm : cb.isCommit with
    | true =>
      have := e4 hcm
      subst this
      exact hinv hw
    | false =>
      have := e7 hb hcm
      rw [hw] at this
      exact absurd this (by decide)

theorem runCallbacks_returns (V : Nat) (A : Bool) :
    ∀ (cbs : List Callback) (ctx : LogicalDecodingContext) (data : CommitInfoDecodingData),
      ctx.output_plugin_private = some data →
      (∀ cb ∈ cbs, cb.hasRowKind = true) →
      ∃ ctx1, runCallbacks V A ctx cbs = Except.ok ctx1 := by
  intro cbs
  induction cbs with
  | nil => intro ctx data _ _; exact ⟨ctx, rfl⟩
  | cons cb rest ih =>
    intro ctx data h hk
    obtain ⟨c, hc⟩ := call_returns V A ctx data cb h (hk cb (List.mem_cons_self _ _))
    obtain ⟨d, hd, _⟩ := call_effect V A ctx c data cb h hc
    obtain ⟨c1, hc1⟩ := ih c d hd (fun x hx => hk x (List.mem_cons_of_mem _ hx))
    exact ⟨c1, by simp only [runCallbacks, hc, hc1]⟩

theorem runCallbacks_keeps_zero_invariant (V : Nat) (A : Bool) :
    ∀ (cbs : List Callback) (ctx ctx1 : LogicalDecodingContext) (data : CommitInfoDecodingData),
      ctx.output_plugin_private = some data →
      (data.xact_wrote_changes = false → data.countersZero) →
      runCallbacks V A ctx cbs = Except.ok ctx1 →
      ∃ data1, ctx1.output_plugin_private = some data1 ∧
        (data1.xact_wrote_changes = false → data1.countersZero) := by
  intro cbs
  induction cbs with
  | nil =>
    intro ctx ctx1 data h hinv hrun
    simp only [runCallbacks, Except.ok.injEq] at hrun
    subst hrun
    exact ⟨data, h, hinv⟩
  | cons cb rest ih =>
    intro ctx ctx1 data h hinv hrun
    simp only [runCallbacks] at hrun
    cases hx : Callback.call V A ctx cb with
    | error e => simp [hx] at hrun
    | ok c =>
      simp only [hx] at hrun
      obtain ⟨d, hd, hi⟩ := call_keeps_zero_invariant V A ctx c data cb h hinv hx
      exact ih c ctx1 d hd hi hrun

theorem runCallbacks_keeps_wrote (V : Nat) (A : Bool) :
    ∀ (cbs : List Callback) (ctx ctx1 : LogicalDecodingContext) (data : CommitInfoDecodingData),
      ctx.output_plugin_private = some data →
      data.xact_wrote_changes = true →
      (∀ cb ∈ cbs, cb.isBegin = false) →
      runCallbacks V A ctx cbs = Except.ok ctx1 →
      ∃ data1, ctx1.output_plugin_private = some data1 ∧ data1.xact_wrote_changes = true := by
  intro cbs
  induction cbs with
  | nil =>
    intro ctx ctx1 data h hw _ hrun
    simp only [runCallbacks, Except.ok.injEq] at hrun
    subst hrun
    exact ⟨data, h, hw⟩
  | cons cb rest ih =>
    intro ctx ctx1 data h hw hnb hrun
    simp only [runCallbacks] at hrun
    cases hx : Callback.call V A ctx cb with
    | error e => simp [hx] at hrun
    | ok c =>
      simp only [hx] at hrun
      obtain ⟨d, hd, _, _, _, _, e6, _⟩ := call_effect V A ctx c data cb h hx
      exact ih c ctx1 d hd (e6 (hnb cb (List.mem_cons_self _ _)) hw)
        (fun x hx => hnb x (List.mem_cons_of_mem _ hx)) hrun

/-! ## Frame and invariant properties of the callbacks -/

/-- C13 as amended: on a context that holds a private record, a change
notification of a kind other than Insert, Update and Delete ends in an
assertion failure in a build with assertion checking, and in a build without
it returns normally, with `xact_wrote_changes` set and every counter as it
was. -/
theorem change_other_kind (ctx : LogicalDecodingContext) (data : CommitInfoDecodingData)
    (txn : ReorderBufferTXN) (rel : Relation) (change : ReorderBufferChange)
    (h : ctx.output_plugin_private = some data)
    (hI : change.action ≠ REORDER_BUFFER_CHANGE_INSERT)
    (hU : change.action ≠ REORDER_BUFFER_CHANGE_UPDATE)
    (hD : change.action ≠ REORDER_BUFFER_CHANGE_DELETE) :
    pg_decode_change true ctx txn rel change = Except.error CallbackFault.assertionFailure ∧
    pg_decode_change false ctx txn rel change =
      Except.ok { ctx with output_plugin_private := some { data with xact_wrote_changes := true } } := by
  obtain ⟨action⟩ := change
  cases action <;> simp_all [pg_decode_change]

/-- Witness of C13 as amended: a change of kind `MESSAGE`. -/
theorem change_other_kind_witness :
    pg_decode_change true ⟨[], some ⟨1, 2, 3, 4, 5, false, false⟩, [], []⟩ ⟨7⟩ ⟨1⟩
        ⟨REORDER_BUFFER_CHANGE_MESSAGE⟩ = Except.error CallbackFault.assertionFailure ∧
    pg_decode_change false ⟨[], some ⟨1, 2, 3, 4, 5, false, false⟩, [], []⟩ ⟨7⟩ ⟨1⟩
        ⟨REORDER_BUFFER_CHANGE_MESSAGE⟩ =
      Except.ok ⟨[], some ⟨1, 2, 3, 4, 5, false, true⟩, [], []⟩ :=
  change_other_kind ⟨[], some ⟨1, 2, 3, 4, 5, false, false⟩, [], []⟩
    ⟨1, 2, 3, 4, 5, false, false⟩ ⟨7⟩ ⟨1⟩ ⟨REORDER_BUFFER_CHANGE_MESSAGE⟩ rfl
    (by decide) (by decide) (by decide)

/-- Counterexample to C13 as stated: in a build without assertion checking a
change of kind `MESSAGE` returns normally and the record is updated
(`xact_wrote_changes` goes from false to true). -/
theorem other_kind_returns_normally :
    pg_decode_change false ⟨[], some ⟨1, 2, 3, 4, 5, false, false⟩, [], []⟩ ⟨7⟩ ⟨1⟩
        ⟨REORDER_BUFFER_CHANGE_MESSAGE⟩ =
      Except.ok ⟨[], some ⟨1, 2, 3, 4, 5, false, true⟩, [], []⟩ ∧
    pg_decode_change false ⟨[], some ⟨1, 2, 3, 4, 5, false, false⟩, [], []⟩ ⟨7⟩ ⟨1⟩
        ⟨REORDER_BUFFER_CHANGE_MESSAGE⟩ ≠ Except.error CallbackFault.assertionFailure := by
  constructor
  · rfl
  · simp [pg_decode_change]

/-- C14: on a context that holds a private record, COMMIT returns a context
with the same private record (all five counters, `xact_wrote_changes`,
`skip_empty_xacts`) and the same options, whether or not it writes a line; a
second COMMIT of the same transaction at the same position right after it
writes the same lines again and still leaves the record as it was. -/
theorem commit_txn_frame (V : Nat) (ctx : LogicalDecodingContext)
    (data : CommitInfoDecodingData) (txn : ReorderBufferTXN) (lsn : Nat)
    (h : ctx.output_plugin_private = some data) :
    ∃ ctx1 ctx2 lines,
      pg_decode_commit_txn V ctx txn lsn = Except.ok ctx1 ∧
      ctx1.output_plugin_private = some data ∧
      ctx1.output_plugin_options = ctx.output_plugin_options ∧
      ctx1.written = ctx.written ++ lines ∧
      pg_decode_commit_txn V ctx1 txn lsn = Except.ok ctx2 ∧
      ctx2.output_plugin_private = some data ∧
      ctx2.written = ctx1.written ++ lines := by
  by_cases hc : data.skip_empty_xacts = true ∧ data.xact_wrote_changes = false
  · have h1 := commit_txn_suppressed V ctx data txn lsn h hc.1 hc.2
    exact ⟨ctx, ctx, [], h1, h, rfl, by simp, h1, h, by simp⟩
  · obtain ⟨line, hl⟩ := commit_txn_emits_uniform V data txn lsn hc
    have h1 := hl ctx h
    have h2 := hl { ctx with out := line, written := ctx.written ++ [String.mk line] } h
    exact ⟨_, _, [String.mk line], h1, h, rfl, rfl, h2, h, rfl⟩

/-- Witness of C14: two COMMITs in a row on a record with two inserts. -/
theorem commit_txn_frame_witness :
    ∃ ctx1 ctx2 lines,
      pg_decode_commit_txn 110000 ⟨[], some ⟨2, 1, 0, 0, 0, false, true⟩, [], []⟩ ⟨100⟩ 64 =
        Except.ok ctx1 ∧
      ctx1.output_plugin_private = some ⟨2, 1, 0, 0, 0, false, true⟩ ∧
      ctx1.output_plugin_options = [] ∧
      ctx1.written = [] ++ lines ∧
      pg_decode_commit_txn 110000 ctx1 ⟨100⟩ 64 = Except.ok ctx2 ∧
      ctx2.output_plugin_private = some ⟨2, 1, 0, 0, 0, false, true⟩ ∧
      ctx2.written = ctx1.written ++ lines :=
  commit_txn_frame 110000 ⟨[], some ⟨2, 1, 0, 0, 0, false, true⟩, [], []⟩
    ⟨2, 1, 0, 0, 0, false, true⟩ ⟨100⟩ 64 rfl

/-- C15: on a context that holds a private record, each of BEGIN, a change
notification of kind Insert, Update or Delete, a truncate notification and
COMMIT returns a context whose record has the same `skip_empty_xacts`; so does
every sequence of such calls. -/
theorem skip_empty_xacts_immutable (V : Nat) (A : Bool) (ctx : LogicalDecodingContext)
    (data : CommitInfoDecodingData) (h : ctx.output_plugin_private = some data) :
    (∀ txn, ∃ ctx1 data1, pg_decode_begin_txn ctx txn = Except.ok ctx1 ∧
      ctx1.output_plugin_private = some data1 ∧
      data1.skip_empty_xacts = data.skip_empty_xacts) ∧
    (∀ txn rel change, (Callback.change_cb txn rel change).hasRowKind = true →
      ∃ ctx1 data1, pg_decode_change A ctx txn rel change = Except.ok ctx1 ∧
        ctx1.output_plugin_private = some data1 ∧
        data1.skip_empty_xacts = data.skip_empty_xacts) ∧
    (∀ txn nrelations relations change,
      ∃ ctx1 data1, pg_decode_truncate ctx txn nrelations relations change = Except.ok ctx1 ∧
        ctx1.output_plugin_private = some data1 ∧
        data1.skip_empty_xacts = data.skip_empty_xacts) ∧
    (∀ txn lsn, ∃ ctx1 data1, pg_decode_commit_txn V ctx txn lsn = Except.ok ctx1 ∧
      ctx1.output_plugin_private = some data1 ∧
      data1.skip_empty_xacts = data.skip_empty_xacts) ∧
    (∀ cbs : List Callback, (∀ cb ∈ cbs, cb.hasRowKind = true) →
      ∃ ctx1 data1, runCallbacks V A ctx cbs = Except.ok ctx1 ∧
        ctx1.output_plugin_private = some data1 ∧
        data1.skip_empty_xacts = data.skip_empty_xacts) := by
  have one : ∀ cb : Callback, cb.hasRowKind = true →
      ∃ ctx1 data1, cb.call V A ctx = Except.ok ctx1 ∧
        ctx1.output_plugin_private = some data1 ∧
        data1.skip_empty_xacts = data.skip_empty_xacts := by
    intro cb hk
    obtain ⟨c, hc⟩ := call_returns V A ctx data cb h hk
    obtain ⟨d, hd, hs, _⟩ := call_effect V A ctx c data cb h hc
    exact ⟨c, d, hc, hd, hs⟩
  refine ⟨?_, ?_, ?_, ?_, ?_⟩
  · intro txn
    exact one (Callback.begin_cb txn) rfl
  · intro txn rel change hk
    exact one (Callback.change_cb txn rel change) hk
  · intro txn n rels change
    exact one (Callback.truncate_cb txn n rels change) rfl
  · intro txn lsn
    exact one (Callback.commit_cb txn lsn) rfl
  · intro cbs hk
    obtain ⟨c, hc⟩ := runCallbacks_returns V A cbs ctx data h hk
    obtain ⟨d, hd, hs⟩ := runCallbacks_keeps_flag V A cbs ctx c data h hc
    exact ⟨c, d, hc, hd, hs⟩

/-- Witness of C15: a window with an insert and a truncate on a record with
`skip_empty_xacts = true`. -/
theorem skip_empty_xacts_immutable_witness :
    ∃ ctx1 data1, runCallbacks 110000 true ⟨[], some ⟨0, 0, 0, 0, 0, true, false⟩, [], []⟩
        [Callback.begin_cb ⟨7⟩,
         Callback.change_cb ⟨7⟩ ⟨1⟩ ⟨REORDER_BUFFER_CHANGE_INSERT⟩,
         Callback.truncate_cb ⟨7⟩ 2 [⟨1⟩, ⟨2⟩] ⟨REORDER_BUFFER_CHANGE_TRUNCATE⟩,
         Callback.commit_cb ⟨7⟩ 64] = Except.ok ctx1 ∧
      ctx1.output_plugin_private = some data1 ∧ data1.skip_empty_xacts = true :=
  (skip_empty_xacts_immutable 110000 true ⟨[], some ⟨0, 0, 0, 0, 0, true, false⟩, [], []⟩
    ⟨0, 0, 0, 0, 0, true, false⟩ rfl).2.2.2.2
    [Callback.begin_cb ⟨7⟩,
     Callback.change_cb ⟨7⟩ ⟨1⟩ ⟨REORDER_BUFFER_CHANGE_INSERT⟩,
     Callback.truncate_cb ⟨7⟩ 2 [⟨1⟩, ⟨2⟩] ⟨REORDER_BUFFER_CHANGE_TRUNCATE⟩,
     Callback.commit_cb ⟨7⟩ 64] (by decide)

/-- C16: on a context that holds a private record: once `xact_wrote_changes`
is true it is true after every sequence of change notifications (kinds Insert,
Update, Delete), truncate notifications and COMMITs; BEGIN sets it to false and
no other call takes it from true to false; and the first change or truncate
notification after a BEGIN makes it true. -/
theorem wrote_changes_sticky (V : Nat) (A : Bool) (ctx : LogicalDecodingContext)
    (data : CommitInfoDecodingData) (h : ctx.output_plugin_private = some data) :
    (data.xact_wrote_changes = true →
      ∀ cbs : List Callback, (∀ cb ∈ cbs, cb.hasRowKind = true ∧ cb.isBegin = false) →
        ∃ ctx1 data1, runCallbacks V A ctx cbs = Except.ok ctx1 ∧
          ctx1.output_plugin_private = some data1 ∧ data1.xact_wrote_changes = true) ∧
    (∀ txn, ∃ ctx1 data1, pg_decode_begin_txn ctx txn = Except.ok ctx1 ∧
      ctx1.output_plugin_private = some data1 ∧ data1.xact_wrote_changes = false) ∧
    (∀ (cb : Callback) ctx1 data1, cb.call V A ctx = Except.ok ctx1 →
      ctx1.output_plugin_private = some data1 →
      data.xact_wrote_changes = true → data1.xact_wrote_changes = false → cb.isBegin = true) ∧
    (∀ txn (cb : Callback), cb.hasRowKind = true → cb.isBegin = false → cb.isCommit = false →
      ∃ ctx1 data1, runCallbacks V A ctx [Callback.begin_cb txn, cb] = Except.ok ctx1 ∧
        ctx1.output_plugin_private = some data1 ∧ data1.xact_wrote_changes = true) := by
  refine ⟨?_, ?_, ?_, ?_⟩
  · intro hw cbs hcbs
    obtain ⟨c, hc⟩ := runCallbacks_returns V A cbs ctx data h (fun cb hcb => (hcbs cb hcb).1)
    obtain ⟨d, hd, hwd⟩ := runCallbacks_keeps_wrote V A cbs ctx c data h hw
      (fun cb hcb => (hcbs cb hcb).2) hc
    exact ⟨c, d, hc, hd, hwd⟩
  · intro txn
    exact ⟨_, _, begin_txn_eq ctx data txn h, rfl, rfl⟩
  · intro cb ctx1 data1 hrun hd1 hw hw1
    obtain ⟨d, hd, _, _, _, _, e6, _⟩ := call_effect V A ctx ctx1 data cb h hrun
    rw [hd1, Option.some.injEq] at hd
    subst hd
    cases hb : cb.isBegin with
    | true => rfl
    | false =>
      have := e6 hb hw
      rw [hw1] at this
      exact absurd this (by decide)
  · intro txn cb hk hb hcm
    have hbegin := begin_txn_eq ctx data txn h
    obtain ⟨c, hc⟩ := call_returns V A
      { ctx with output_plugin_private := some ⟨0, 0, 0, 0, 0, data.skip_empty_xacts, false⟩ }
      ⟨0, 0, 0, 0, 0, data.skip_empty_xacts, false⟩ cb rfl hk
    obtain ⟨d, hd, _, _, _, _, _, e7⟩ := call_effect V A _ c _ cb rfl hc
    refine ⟨c, d, ?_, hd, e7 hb hcm⟩
    simp only [runCallbacks, Callback.call, hbegin]
    simp only [Callback.call] at hc
    rw [hc]

/-- Witness of C16: after an insert the flag survives a truncate and a COMMIT. -/
theorem wrote_changes_sticky_witness :
    ∃ ctx1 data1, runCallbacks 110000 true ⟨[], some ⟨1, 0, 0, 0, 0, false, true⟩, [], []⟩
        [Callback.truncate_cb ⟨7⟩ 2 [⟨1⟩, ⟨2⟩] ⟨REORDER_BUFFER_CHANGE_TRUNCATE⟩,
         Callback.commit_cb ⟨7⟩ 64,
         Callback.change_cb ⟨7⟩ ⟨1⟩ ⟨REORDER_BUFFER_CHANGE_DELETE⟩] = Except.ok ctx1 ∧
      ctx1.output_plugin_private = some data1 ∧ data1.xact_wrote_changes = true :=
  (wrote_changes_sticky 110000 true ⟨[], some ⟨1, 0, 0, 0, 0, false, true⟩, [], []⟩
    ⟨1, 0, 0, 0, 0, false, true⟩ rfl).1 rfl
    [Callback.truncate_cb ⟨7⟩ 2 [⟨1⟩, ⟨2⟩] ⟨REORDER_BUFFER_CHANGE_TRUNCATE⟩,
     Callback.commit_cb ⟨7⟩ 64,
     Callback.change_cb ⟨7⟩ ⟨1⟩ ⟨REORDER_BUFFER_CHANGE_DELETE⟩] (by decide)

/-- C17: on a context that holds a private record, BEGIN, a change
notification of kind Insert, Update or Delete, and a truncate notification
return with the written messages and the output buffer as they were; a call
after which the written messages differ is a COMMIT. -/
theorem only_commit_writes (V : Nat) (A : Bool) (ctx : LogicalDecodingContext)
    (data : CommitInfoDecodingData) (h : ctx.output_plugin_private = some data) :
    (∀ txn, ∃ ctx1, pg_decode_begin_txn ctx txn = Except.ok ctx1 ∧
      ctx1.written = ctx.written ∧ ctx1.out = ctx.out) ∧
    (∀ txn rel change, (Callback.change_cb txn rel change).hasRowKind = true →
      ∃ ctx1, pg_decode_change A ctx txn rel change = Except.ok ctx1 ∧
        ctx1.written = ctx.written ∧ ctx1.out = ctx.out) ∧
    (∀ txn nrelations relations change,
      ∃ ctx1, pg_decode_truncate ctx txn nrelations relations change = Except.ok ctx1 ∧
        ctx1.written = ctx.written ∧ ctx1.out = ctx.out) ∧
    (∀ (cb : Callback) ctx1, cb.call V A ctx = Except.ok ctx1 →
      ctx1.written ≠ ctx.written → cb.isCommit = true) := by
  have one : ∀ cb : Callback, cb.hasRowKind = true → cb.isCommit = false →
      ∃ ctx1, cb.call V A ctx = Except.ok ctx1 ∧
        ctx1.written = ctx.written ∧ ctx1.out = ctx.out := by
    intro cb hk hcm
    obtain ⟨c, hc⟩ := call_returns V A ctx data cb h hk
    obtain ⟨d, _, _, e3, _⟩ := call_effect V A ctx c data cb h hc
    exact ⟨c, hc, (e3 hcm).1, (e3 hcm).2⟩
  refine ⟨?_, ?_, ?_, ?_⟩
  · intro txn
    exact one (Callback.begin_cb txn) rfl rfl
  · intro txn rel change hk
    exact one (Callback.change_cb txn rel change) hk rfl
  · intro txn n rels change
    exact one (Callback.truncate_cb txn n rels change) rfl rfl
  · intro cb ctx1 hrun hne
    obtain ⟨d, _, _, e3, _⟩ := call_effect V A ctx ctx1 data cb h hrun
    cases hcm : cb.isCommit with
    | true => rfl
    | false => exact absurd (e3 hcm).1 hne

/-- Witness of C17: an insert on a context with one message already written. -/
theorem only_commit_writes_witness :
    ∃ ctx1, pg_decode_change true ⟨[], some ⟨0, 0, 0, 0, 0, false, false⟩, [], ["earlier"]⟩
        ⟨7⟩ ⟨1⟩ ⟨REORDER_BUFFER_CHANGE_INSERT⟩ = Except.ok ctx1 ∧
      ctx1.written = ["earlier"] ∧ ctx1.out = [] :=
  (only_commit_writes 110000 true ⟨[], some ⟨0, 0, 0, 0, 0, false, false⟩, [], ["earlier"]⟩
    ⟨0, 0, 0, 0, 0, false, false⟩ rfl).2.1 ⟨7⟩ ⟨1⟩ ⟨REORDER_BUFFER_CHANGE_INSERT⟩ rfl

/-- C20: after a startup that succeeds, every sequence of BEGIN, change
(kinds Insert, Update, Delete), truncate and COMMIT calls returns and leaves a
record in which, if `xact_wrote_changes` is false, the five counters are all
0; hence a COMMIT that then returns without writing hides no non-zero
counter. -/
theorem unwritten_counters_zero (V : Nat) (A : Bool) (parse_bool : String → Option Bool)
    (ctx : LogicalDecodingContext) (opt : OutputPluginOptions) (i : Bool)
    (cbs : List Callback)
    (hok : (pg_decode_startup parse_bool ctx opt i).error = none)
    (hk : ∀ cb ∈ cbs, cb.hasRowKind = true) :
    ∃ ctx1 data1,
      runCallbacks V A (pg_decode_startup parse_bool ctx opt i).ctx cbs = Except.ok ctx1 ∧
      ctx1.output_plugin_private = some data1 ∧
      (data1.xact_wrote_changes = false → data1.countersZero) ∧
      (∀ txn lsn ctx2, pg_decode_commit_txn V ctx1 txn lsn = Except.ok ctx2 →
        ctx2.written = ctx1.written → data1.countersZero) := by
  obtain ⟨b, hb⟩ := startup_private_record parse_bool ctx opt i
  obtain ⟨c, hc⟩ := runCallbacks_returns V A cbs _ _ hb hk
  obtain ⟨d, hd, hinv⟩ := runCallbacks_keeps_zero_invariant V A cbs _ c _ hb
    (fun _ => ⟨rfl, rfl, rfl, rfl, rfl⟩) hc
  refine ⟨c, d, hc, hd, hinv, ?_⟩
  intro txn lsn ctx2 hcommit hsame
  by_cases hs : d.skip_empty_xacts = true ∧ d.xact_wrote_changes = false
  · exact hinv hs.2
  · obtain ⟨line, hl⟩ := commit_txn_emits V c d txn lsn hd hs
    rw [hl, Except.ok.injEq] at hcommit
    subst hcommit
    exact absurd hsame (append_singleton_ne _ _)

/-- Witness of C20: after a full window and a BEGIN, with
`skip-empty-xacts=true`, the flag is false and the counters are 0. -/
theorem unwritten_counters_zero_witness :
    (pg_decode_startup host_parse_bool (freshContext [⟨"skip-empty-xacts", some "true"⟩])
      hostOptions false).error = none ∧
    ∃ ctx1 data1,
      runCallbacks 110000 true
        (pg_decode_startup host_parse_bool (freshContext [⟨"skip-empty-xacts", some "true"⟩])
          hostOptions false).ctx
        [Callback.begin_cb ⟨7⟩,
         Callback.change_cb ⟨7⟩ ⟨1⟩ ⟨REORDER_BUFFER_CHANGE_INSERT⟩,
         Callback.truncate_cb ⟨7⟩ 2 [⟨1⟩, ⟨2⟩] ⟨REORDER_BUFFER_CHANGE_TRUNCATE⟩,
         Callback.commit_cb ⟨7⟩ 64,
         Callback.begin_cb ⟨8⟩] = Except.ok ctx1 ∧
      ctx1.output_plugin_private = some data1 ∧
      (data1.xact_wrote_changes = false → data1.countersZero) ∧
      (∀ txn lsn ctx2, pg_decode_commit_txn 110000 ctx1 txn lsn = Except.ok ctx2 →
        ctx2.written = ctx1.written → data1.countersZero) :=
  ⟨by decide,
   unwritten_counters_zero 110000 true host_parse_bool
    (freshContext [⟨"skip-empty-xacts", some "true"⟩]) hostOptions false
    [Callback.begin_cb ⟨7⟩,
     Callback.change_cb ⟨7⟩ ⟨1⟩ ⟨REORDER_BUFFER_CHANGE_INSERT⟩,
     Callback.truncate_cb ⟨7⟩ 2 [⟨1⟩, ⟨2⟩] ⟨REORDER_BUFFER_CHANGE_TRUNCATE⟩,
     Callback.commit_cb ⟨7⟩ 64,
     Callback.begin_cb ⟨8⟩] (by decide) (by decide)⟩

/-! ## The line without truncate fields -/

theorem toDigitsCore_mem (b : Nat) (hb : 0 < b) :
    ∀ (fuel n : Nat) (ds : List Char) (c : Char), c ∈ Nat.toDigitsCore b fuel n ds →
      c ∈ ds ∨ ∃ d, d < b ∧ c = Nat.digitChar d := by
  intro fuel
  induction fuel with
  | zero => intro n ds c hc; exact Or.inl (by simpa [Nat.toDigitsCore] using hc)
  | succ fuel ih =>
    intro n ds c hc
    simp only [Nat.toDigitsCore] at hc
    split at hc
    · rcases List.mem_cons.mp hc with hc | hc
      · exact Or.inr ⟨n % b, Nat.mod_lt _ hb, hc⟩
      · exact Or.inl hc
    · rcases ih _ _ c hc with hc | hc
      · rcases List.mem_cons.mp hc with hc | hc
        · exact Or.inr ⟨n % b, Nat.mod_lt _ hb, hc⟩
        · exact Or.inl hc
      · exact Or.inr hc

theorem decimal_no_c (n : Nat) : 'c' ∉ decimal n := by
  intro hc
  rcases toDigitsCore_mem 10 (by decide) (n + 1) n [] 'c' hc with hc | ⟨d, hd, hc⟩
  · simp at hc
  · revert hc
    interval_cases d <;> decide

theorem hexDigits_no_c (cs : List Char) (h : ∀ c ∈ cs, isUpperHexDigit c = true) :
    'c' ∉ cs := by
  intro hc
  have := h 'c' hc
  revert this
  decide

theorem summaryLineShort_data (x l i d u : Nat) :
    (summaryLineShort x l i d u).data =
    "xid ".data ++ decimal x ++ ": lsn:".data ++ hexUpper (l / 2 ^ 32) ++ "/".data ++
      hex8 (l % 2 ^ 32) ++ " inserts:".data ++ decimal i ++
      " deletes:".data ++ decimal d ++ " updates:".data ++ decimal u := by
  have ht : ∀ n : Nat, (toString n).data = Nat.toDigits 10 n := fun _ => rfl
  simp [summaryLineShort, String.data_append, decimal, ht]

theorem summaryLineShort_no_c (x l i d u : Nat) : 'c' ∉ (summaryLineShort x l i d u).data := by
  rw [summaryLineShort_data]
  have h1 := decimal_no_c x
  have h2 := decimal_no_c i
  have h3 := decimal_no_c d
  have h4 := decimal_no_c u
  have h5 := hexDigits_no_c _ (hexUpper_facts (l / 2 ^ 32)).2.1
  have h6 := hexDigits_no_c _ (hex8_facts (l % 2 ^ 32) (Nat.mod_lt _ (by decide))).2.1
  simp only [List.mem_append, not_or]
  refine ⟨⟨⟨⟨⟨⟨⟨⟨⟨⟨⟨?_, h1⟩, ?_⟩, h5⟩, ?_⟩, h6⟩, ?_⟩, h2⟩, ?_⟩, h3⟩, ?_⟩, h4⟩ <;> decide

theorem not_infix_of_no_c (s piece : String) (hs : 'c' ∉ s.data) (hp : 'c' ∈ piece.data) :
    ¬ ∃ front back : String, s = front ++ piece ++ back := by
  rintro ⟨front, back, rfl⟩
  apply hs
  simp only [String.data_append, List.mem_append]
  exact Or.inl (Or.inr hp)

theorem summaryLine_eq_short_append (x l i d u t r : Nat) :
    summaryLine x l i d u t r =
      summaryLineShort x l i d u ++ " truncates:" ++ toString t ++
        " relations truncated:" ++ toString r := by
  simp only [summaryLine, summaryLineShort]

theorem commit_txn_line_short (V : Nat) (ctx : LogicalDecodingContext)
    (data : CommitInfoDecodingData) (txn : ReorderBufferTXN) (lsn : Nat)
    (hV : ¬ 110000 ≤ V) (h : ctx.output_plugin_private = some data)
    (hne : ¬ (data.skip_empty_xacts = true ∧ data.xact_wrote_changes = false)) :
    pg_decode_commit_txn V ctx txn lsn =
      Except.ok { ctx with
        out := (summaryLineShort (txn.xid % 2 ^ 32) (lsn % 2 ^ 64) (data.nb_insert % 2 ^ 64)
            (data.nb_delete % 2 ^ 64) (data.nb_update % 2 ^ 64)).data,
        written := ctx.written ++
          [summaryLineShort (txn.xid % 2 ^ 32) (lsn % 2 ^ 64) (data.nb_insert % 2 ^ 64)
            (data.nb_delete % 2 ^ 64) (data.nb_update % 2 ^ 64)] } := by
  have hc : (data.skip_empty_xacts && !data.xact_wrote_changes) = false := by
    cases hs : data.skip_empty_xacts <;> cases hw : data.xact_wrote_changes <;> simp_all
  simp only [pg_decode_commit_txn, h, hc, OutputPluginPrepareWrite, OutputPluginWrite,
    if_neg hV, appendStringInfo_commit_short, summaryLineShort_data, (lsn_halves lsn).1,
    (lsn_halves lsn).2, Bool.false_eq_true, if_false]
  rfl

/-- C18: without truncate support (`PG_VERSION_NUM < 110000`) a COMMIT that is
not suppressed appends exactly `xid <txid>: lsn:<hi>/<lo8> inserts:<n>
deletes:<n> updates:<n>`; that line contains neither `truncates:` nor
`relations truncated:`; and on the same context, transaction and position the
line appended with truncate support is that line followed by
` truncates:<nb_truncate> relations truncated:<nb_rel_truncated>`. -/
theorem short_line_text (V W : Nat) (ctx : LogicalDecodingContext)
    (data : CommitInfoDecodingData) (txn : ReorderBufferTXN) (lsn : Nat)
    (hV : V < 110000) (hW : 110000 ≤ W) (h : ctx.output_plugin_private = some data)
    (hne : ¬ (data.skip_empty_xacts = true ∧ data.xact_wrote_changes = false)) :
    ∃ ctx1 ctx2 short,
      short = "xid " ++ toString (txn.xid % 2 ^ 32) ++ ": lsn:" ++
          String.mk (hexUpper (lsn % 2 ^ 64 / 2 ^ 32)) ++ "/" ++
          String.mk (hex8 (lsn % 2 ^ 32)) ++
          " inserts:" ++ toString (data.nb_insert % 2 ^ 64) ++
          " deletes:" ++ toString (data.nb_delete % 2 ^ 64) ++
          " updates:" ++ toString (data.nb_update % 2 ^ 64) ∧
      pg_decode_commit_txn V ctx txn lsn = Except.ok ctx1 ∧
      ctx1.written = ctx.written ++ [short] ∧
      (¬ ∃ front back : String, short = front ++ "truncates:" ++ back) ∧
      (¬ ∃ front back : String, short = front ++ "relations truncated:" ++ back) ∧
      pg_decode_commit_txn W ctx txn lsn = Except.ok ctx2 ∧
      ctx2.written = ctx.written ++
        [short ++ " truncates:" ++ toString (data.nb_truncate % 2 ^ 64) ++
          " relations truncated:" ++ toString (data.nb_rel_truncated % 2 ^ 64)] := by
  have hlo : lsn % 2 ^ 64 % 2 ^ 32 = lsn % 2 ^ 32 := by omega
  have hshort := commit_txn_line_short V ctx data txn lsn (by omega) h hne
  have hlong := commit_txn_line W ctx data txn lsn hW h hne
  have hnc := summaryLineShort_no_c (txn.xid % 2 ^ 32) (lsn % 2 ^ 64) (data.nb_insert % 2 ^ 64)
    (data.nb_delete % 2 ^ 64) (data.nb_update % 2 ^ 64)
  refine ⟨_, _, summaryLineShort (txn.xid % 2 ^ 32) (lsn % 2 ^ 64) (data.nb_insert % 2 ^ 64)
    (data.nb_delete % 2 ^ 64) (data.nb_update % 2 ^ 64), ?_, hshort, rfl,
    not_infix_of_no_c _ _ hnc (by decide), not_infix_of_no_c _ _ hnc (by decide), hlong, ?_⟩
  · simp only [summaryLineShort, hlo]
  · simp only [summaryLine_eq_short_append]

/-- Witness of C18: two inserts and one delete, committed at position
0x0000000100000040 by a build without and a build with truncate support. -/
theorem short_line_text_witness :
    ∃ ctx1 ctx2,
      pg_decode_commit_txn 100000 ⟨[], some ⟨2, 1, 0, 0, 0, false, true⟩, [], []⟩ ⟨100⟩
        0x0000000100000040 = Except.ok ctx1 ∧
      ctx1.written = ["xid 100: lsn:1/00000040 inserts:2 deletes:1 updates:0"] ∧
      pg_decode_commit_txn 110000 ⟨[], some ⟨2, 1, 0, 0, 0, false, true⟩, [], []⟩ ⟨100⟩
        0x0000000100000040 = Except.ok ctx2 ∧
      ctx2.written =
        ["xid 100: lsn:1/00000040 inserts:2 deletes:1 updates:0 truncates:0 relations truncated:0"] := by
  obtain ⟨c1, c2, short, hs, h1, w1, _, _, h2, w2⟩ := short_line_text 100000 110000
    ⟨[], some ⟨2, 1, 0, 0, 0, false, true⟩, [], []⟩ ⟨2, 1, 0, 0, 0, false, true⟩ ⟨100⟩
    0x0000000100000040 (by decide) (by decide) rfl (by decide)
  subst hs
  refine ⟨c1, c2, h1, ?_, h2, ?_⟩
  · rw [w1]; rfl
  · rw [w2]; rfl

/-! ## Startup characterised by its option list -/

theorem startup_options_step_accepted (parse_bool : String → Option Bool) (elem : DefElem)
    (rest : List DefElem) (data : CommitInfoDecodingData)
    (h : elem.accepted parse_bool = true) :
    pg_decode_startup_options parse_bool (elem :: rest) data =
      pg_decode_startup_options parse_bool rest
        { data with skip_empty_xacts := elem.flagValue parse_bool } := by
  obtain ⟨name, arg⟩ := elem
  simp only [DefElem.accepted, Bool.and_eq_true, decide_eq_true_eq] at h
  obtain ⟨hname, harg⟩ := h
  subst hname
  cases arg with
  | none => simp [pg_decode_startup_options, DefElem.flagValue]
  | some v =>
    cases hv : parse_bool v with
    | none => simp [hv] at harg
    | some b => simp [pg_decode_startup_options, DefElem.flagValue, hv]

theorem startup_options_step_rejected (parse_bool : String → Option Bool) (elem : DefElem)
    (h : elem.accepted parse_bool = false) :
    ∃ err, ∀ (rest : List DefElem) (data : CommitInfoDecodingData),
      pg_decode_startup_options parse_bool (elem :: rest) data = (data, some err) := by
  obtain ⟨name, arg⟩ := elem
  by_cases hname : name = "skip-empty-xacts"
  · subst hname
    cases arg with
    | none => simp [DefElem.accepted] at h
    | some v =>
      cases hv : parse_bool v with
      | some b => simp [DefElem.accepted, hv] at h
      | none =>
        exact ⟨⟨ERRCODE_INVALID_PARAMETER_VALUE,
            errmsg "could not parse value \"%s\" for parameter \"%s\""
              [FormatArg.str v, FormatArg.str "skip-empty-xacts"]⟩,
          fun rest data => by simp only [pg_decode_startup_options, if_true, hv]⟩
  · exact ⟨⟨ERRCODE_INVALID_PARAMETER_VALUE,
        errmsg "option \"%s\" = \"%s\" is unknown"
          [FormatArg.str name, FormatArg.str (arg.getD "(null)")]⟩,
      fun rest data => by simp only [pg_decode_startup_options, hname, if_false]⟩

theorem startup_options_all_accepted (parse_bool : String → Option Bool) :
    ∀ (opts : List DefElem) (data : CommitInfoDecodingData),
      (∀ e ∈ opts, e.accepted parse_bool = true) →
      pg_decode_startup_options parse_bool opts data =
        ({ data with
           skip_empty_xacts :=
             match opts.getLast? with
             | none => data.skip_empty_xacts
             | some e => e.flagValue parse_bool }, none) := by
  intro opts
  induction opts with
  | nil => intro data _; rfl
  | cons e rest ih =>
    intro data h
    rw [startup_options_step_accepted parse_bool e rest data (h e (List.mem_cons_self _ _)),
      ih _ (fun x hx => h x (List.mem_cons_of_mem _ hx))]
    cases rest with
    | nil => simp
    | cons r rs =>
      have hl : (r :: rs).getLast? = some ((r :: rs).getLast (by simp)) :=
        List.getLast?_eq_getLast _ _
      simp only [List.getLast?_cons_cons, hl]

theorem startup_options_no_error (parse_bool : String → Option Bool) :
    ∀ (opts : List DefElem) (data : CommitInfoDecodingData),
      (pg_decode_startup_options parse_bool opts data).2 = none →
      ∀ e ∈ opts, e.accepted parse_bool = true := by
  intro opts
  induction opts with
  | nil => intro data _ e he; simp at he
  | cons x rest ih =>
    intro data h e he
    cases hx : x.accepted parse_bool with
    | false =>
      obtain ⟨err, herr⟩ := startup_options_step_rejected parse_bool x hx
      rw [herr rest data] at h
      simp at h
    | true =>
      rw [startup_options_step_accepted parse_bool x rest data hx] at h
      rcases List.mem_cons.mp he with he | he
      · rw [he]; exact hx
      · exact ih _ h e he

/-- C19: startup reads the option list in order and the list determines its
outcome: it returns without error exactly when every option is named
`skip-empty-xacts` and every value supplied is accepted by the boolean parser;
it then leaves `skip_empty_xacts` at the value of the last option of the list
(false if that option has no value, false for the empty list); and when some
option is offending, the error raised is the error of the first offending
option, the one startup raises on that option alone. -/
theorem startup_characterised (parse_bool : String → Option Bool)
    (ctx : LogicalDecodingContext) (opt : OutputPluginOptions) (i : Bool) :
    ((pg_decode_startup parse_bool ctx opt i).error = none ↔
      ∀ e ∈ ctx.output_plugin_options, e.accepted parse_bool = true) ∧
    ((pg_decode_startup parse_bool ctx opt i).error = none →
      (pg_decode_startup parse_bool ctx opt i).ctx.output_plugin_private =
        some ⟨0, 0, 0, 0, 0, lastOptionValue parse_bool ctx.output_plugin_options, false⟩) ∧
    (∀ (pre rest : List DefElem) (elem : DefElem),
      ctx.output_plugin_options = pre ++ elem :: rest →
      (∀ e ∈ pre, e.accepted parse_bool = true) → elem.accepted parse_bool = false →
      (pg_decode_startup parse_bool ctx opt i).error ≠ none ∧
      (pg_decode_startup parse_bool ctx opt i).error =
        (pg_decode_startup parse_bool { ctx with output_plugin_options := [elem] } opt
          i).error) := by
  have hall : (∀ e ∈ ctx.output_plugin_options, e.accepted parse_bool = true) →
      pg_decode_startup_options parse_bool ctx.output_plugin_options
        ⟨0, 0, 0, 0, 0, false, false⟩ =
      (⟨0, 0, 0, 0, 0, lastOptionValue parse_bool ctx.output_plugin_options, false⟩, none) := by
    intro h
    rw [startup_options_all_accepted parse_bool _ _ h]
    simp only [lastOptionValue]
  refine ⟨⟨?_, ?_⟩, ?_, ?_⟩
  · intro h
    exact startup_options_no_error parse_bool _ _ h
  · intro h
    simp only [pg_decode_startup, hall h]
  · intro h
    have := startup_options_no_error parse_bool _ _ h
    simp only [pg_decode_startup, hall this]
  · intro pre rest elem hopts hpre helem
    obtain ⟨b, hb⟩ := startup_options_accepted parse_bool pre (elem :: rest)
      ⟨0, 0, 0, 0, 0, false, false⟩ hpre
    obtain ⟨err, herr⟩ := startup_options_step_rejected parse_bool elem helem
    simp only [pg_decode_startup, hopts, hb, herr, ne_eq, reduceCtorEq, not_false_eq_true,
      and_self]

/-- Witness of C19: `skip-empty-xacts=true` followed by a bare
`skip-empty-xacts` gives false, and in `skip-empty-xacts=on`, `foo=bar`,
`skip-empty-xacts=notabool` the error is the one of `foo=bar`. -/
theorem startup_characterised_witness :
    (pg_decode_startup host_parse_bool
      (freshContext [⟨"skip-empty-xacts", some "true"⟩, ⟨"skip-empty-xacts", none⟩])
      hostOptions false).error = none ∧
    (pg_decode_startup host_parse_bool
      (freshContext [⟨"skip-empty-xacts", some "true"⟩, ⟨"skip-empty-xacts", none⟩])
      hostOptions false).ctx.output_plugin_private = some ⟨0, 0, 0, 0, 0, false, false⟩ ∧
    (pg_decode_startup host_parse_bool
      (freshContext [⟨"skip-empty-xacts", some "on"⟩, ⟨"foo", some "bar"⟩,
        ⟨"skip-empty-xacts", some "notabool"⟩])
      hostOptions false).error =
      some ⟨ERRCODE_INVALID_PARAMETER_VALUE, "option \"foo\" = \"bar\" is unknown"⟩ := by
  have h1 := startup_characterised host_parse_bool
    (freshContext [⟨"skip-empty-xacts", some "true"⟩, ⟨"skip-empty-xacts", none⟩])
    hostOptions false
  have h2 := (startup_characterised host_parse_bool
    (freshContext [⟨"skip-empty-xacts", some "on"⟩, ⟨"foo", some "bar"⟩,
      ⟨"skip-empty-xacts", some "notabool"⟩])
    hostOptions false).2.2 [⟨"skip-empty-xacts", some "on"⟩]
    [⟨"skip-empty-xacts", some "notabool"⟩] ⟨"foo", some "bar"⟩ rfl (by decide) (by decide)
  have hok := h1.1.2 (by decide)
  refine ⟨hok, ?_, ?_⟩
  · rw [h1.2.1 hok]; rfl
  · rw [h2.2]; rfl

end PgCommitInfo
